import Mathlib

/-!
Verification development for the drift-watcher repository.

The Go sources are shallowly embedded: pure functions become Lean functions,
`(T, error)` returns become `Except String T`, Go `any` values decoded from
JSON become the `Json` inductive below, Go maps become association lists
(canonically key-sorted where they model `map[string]T` produced by
`encoding/json`, whose marshaller sorts map keys), and nil-able slices and
maps become `Option (List _)` where the nil/empty distinction is observable
in Go (`json.Marshal` renders a nil slice as `null` and an empty one as
`[]`).  Wall-clock timestamps are carried as opaque strings.
-/

set_option maxHeartbeats 1000000
set_option maxRecDepth 8000

namespace DriftWatcher

/-- Dynamically typed JSON value, modelling Go `any` as produced by
`encoding/json`.  Numbers are modelled as integers; non-integral JSON
numbers do not occur in any claim under verification. -/
inductive Json where
  | null
  | bool (b : Bool)
  | num (n : Int)
  | str (s : String)
  | arr (elems : List Json)
  | obj (members : List (String × Json))

namespace Json

/-- True exactly on the JSON null value (Go nil interface). -/
def isNull : Json → Bool
  | .null => true
  | _ => false

/-- Lowercase hexadecimal digit, as emitted by Go encoding/json escapes. -/
def hexDigit (n : Nat) : Char :=
  if n < 10 then Char.ofNat (48 + n) else Char.ofNat (97 + n - 10)

/-- Character escaping of Go encoding/json (HTML escaping on, its default):
quote, backslash, the common control characters, and the HTML triple. -/
def escapeChar (c : Char) : String :=
  if c = '"' then "\\\""
  else if c = '\\' then "\\\\"
  else if c = '\n' then "\\n"
  else if c = '\r' then "\\r"
  else if c = '\t' then "\\t"
  else if c = '<' ∨ c = '>' ∨ c = '&' ∨ c.toNat < 32 then
    String.mk ['\\', 'u', '0', '0', hexDigit (c.toNat / 16), hexDigit (c.toNat % 16)]
  else String.singleton c

/-- String-body escaping of Go encoding/json. -/
def escape (s : String) : String :=
  s.toList.foldl (fun acc c => acc ++ escapeChar c) ""

/-- A JSON string literal as emitted by Go encoding/json. -/
def quoteStr (s : String) : String := "\"" ++ escape s ++ "\""

mutual

/-- Compact serialization, as produced by Go `json.Marshal` (no spaces,
members in stored order). -/
def render : Json → String
  | .null => "null"
  | .bool b => if b then "true" else "false"
  | .num n => toString n
  | .str s => quoteStr s
  | .arr es => "[" ++ renderArr es ++ "]"
  | .obj ms => "\x7b" ++ renderObj ms ++ "\x7d"

/-- Comma-joined rendering of array elements. -/
def renderArr : List Json → String
  | [] => ""
  | [e] => render e
  | e :: e2 :: es => render e ++ "," ++ renderArr (e2 :: es)

/-- Comma-joined rendering of object members. -/
def renderObj : List (String × Json) → String
  | [] => ""
  | [kv] => quoteStr kv.1 ++ ":" ++ render kv.2
  | kv :: kv2 :: ms => quoteStr kv.1 ++ ":" ++ render kv.2 ++ "," ++ renderObj (kv2 :: ms)

end

end Json

/-- Insert into a key-sorted association list, replacing an existing binding
with the same key (so that, folding left over members in input order, a later
duplicate key wins — the overwrite semantics of Go map insertion). -/
def sortInsertR {α : Type} : List (String × α) → String → α → List (String × α)
  | [], k, v => [(k, v)]
  | kv :: rest, k, v =>
    if k < kv.1 then (k, v) :: kv :: rest
    else if k = kv.1 then (k, v) :: rest
    else kv :: sortInsertR rest k v

/-- Strictly increasing keys: the canonical shape of an association list that
models a Go `map[string]_` (unique keys, and `json.Marshal` emits map keys
sorted). -/
def sortedKeys {α : Type} (l : List (String × α)) : Prop :=
  l.Pairwise (fun a b => a.1 < b.1)

namespace Json

mutual

/-- Canonicalization performed by decoding a JSON value into Go `any`
(`map[string]interface\x7b\x7d` loses member order; marshalling sorts keys):
object members are key-sorted recursively with later duplicates winning. -/
def canon : Json → Json
  | .arr es => .arr (canonArr es)
  | .obj ms => .obj (canonObjGo [] ms)
  | .null => .null
  | .bool b => .bool b
  | .num n => .num n
  | .str s => .str s

/-- Elementwise canonicalization of an array. -/
def canonArr : List Json → List Json
  | [] => []
  | e :: es => canon e :: canonArr es

/-- Left fold of sorted insertion over object members in input order. -/
def canonObjGo : List (String × Json) → List (String × Json) → List (String × Json)
  | acc, [] => acc
  | acc, (k, v) :: ms => canonObjGo (sortInsertR acc k (canon v)) ms

end

mutual

/-- A value is canonical when every object inside it is key-sorted. -/
def IsCanon : Json → Prop
  | .arr es => IsCanonArr es
  | .obj ms => sortedKeys ms ∧ IsCanonObj ms
  | .null => True
  | .bool _ => True
  | .num _ => True
  | .str _ => True

/-- All array elements canonical. -/
def IsCanonArr : List Json → Prop
  | [] => True
  | e :: es => IsCanon e ∧ IsCanonArr es

/-- All object member values canonical. -/
def IsCanonObj : List (String × Json) → Prop
  | [] => True
  | kv :: ms => IsCanon kv.2 ∧ IsCanonObj ms

end

end Json

/-- Go `map[string]α` behind a possibly-nil reference: `none` models the nil
map.  Association-list representation; maps built by the JSON decoder are
key-sorted with unique keys. -/
abbrev GoMap (α : Type) : Type := Option (List (String × α))

/-- Go map indexing `m[k]` (`none` models `!ok`); indexing a nil map yields
not-found. -/
def goMapGet {α : Type} (m : GoMap α) (k : String) : Option α :=
  match m with
  | none => none
  | some l => l.lookup k

/-! ## Package statemanager (pkg/services/statemanager/statemanager.go) -/

namespace statemanager

/-- One concrete materialization of a resource (`ResourceInstance`).  The
field name `ScheamVersion` reproduces the source's spelling. -/
structure ResourceInstance where
  ScheamVersion : Int := 0
  Attributes : GoMap Json := none
  Dependencies : List String := []

/-- One managed entity in the desired state (`StateResource`). -/
structure StateResource where
  Mode : String := ""
  Module : String := ""
  Name : String := ""
  RType : String := ""
  Provider : String := ""
  Instances : List ResourceInstance := []
  ToolData : List (String × Json) := []

/-- Method `StateResource.ResourceType`: returns the `Type` field (named
`RType` here because `Type` is reserved in Lean). -/
def StateResource.ResourceType (s : StateResource) : String := s.RType

/-- Method `StateResource.AttributeValue` (statemanager.go lines 51-65):
errors with no instances; on the first instance, an absent key is the empty
string with no error, a string value is returned, and any non-string value
is a parse error. -/
def StateResource.AttributeValue (s : StateResource) (attr : String) :
    Except String String :=
  match s.Instances with
  | [] => .error "No Instance for resource"
  | inst :: _ =>
    match goMapGet inst.Attributes attr with
    | none => .ok ""
    | some (Json.str value) => .ok value
    | some _ => .error "attribute value cannot be parsed to string"

/-- Backend configuration parameters (`ConfigDetails`). -/
structure ConfigDetails where
  Path : String := ""
  Bucket : String := ""
  Region : String := ""
  Encrypt : Bool := false
  Key : String := ""
  DynamoDBTable : String := ""

/-- Backend configuration (`BackendConfig`). -/
structure BackendConfig where
  BType : String := ""
  Config : ConfigDetails := {}

/-- The `IaCTool` constant `TerraformTool`. -/
def TerraformTool : String := "terraform"

/-- Parsed-once snapshot of an IaC state file (`StateContent`).  `RawState`
holds the bytes of a JSON document (Go `json.RawMessage`). -/
structure StateContent where
  StateVersion : String := ""
  Tool : String := ""
  ToolVersion : String := ""
  ToolMetadata : List (String × Json) := []
  SchemaVersion : String := ""
  StateId : String := ""
  Resource : List StateResource := []
  RawState : String := ""
  Backend : BackendConfig := {}

end statemanager

/-! ## Package driftchecker (pkg/services/driftchecker) -/

namespace driftchecker

/-- Go string constant `AttributeValueChanged`. -/
def AttributeValueChanged : String := "VALUE_CHANGED"

/-- Go string constant `AttributeMissingInTerraform`. -/
def AttributeMissingInTerraform : String := "MISSING_IN_TERRAFORM"

/-- Go string constant `AttributeMissingInInfrastructure`. -/
def AttributeMissingInInfrastructure : String := "MISSING_IN_INFRASTRUCTURE"

/-- Go string constant `Match`. -/
def Match : String := "MATCH"

/-- Go string constant `Drift`. -/
def Drift : String := "DRIFT"

/-- Go string constant `ResourceMissingInTerraform`. -/
def ResourceMissingInTerraform : String := "MISSING_IN_TERRAFORM"

/-- Go string constant `ResourceMissingInInfrastructure`. -/
def ResourceMissingInInfrastructure : String := "MISSING_IN_INFRASTRUCTURE"

/-- Per-attribute verdict (`DriftItem`).  The Go fields `TerraformValue` and
`ActualValue` are typed `any` but `CompareStates` only ever stores strings in
them, so they are modelled as strings. -/
structure DriftItem where
  Field : String := ""
  TerraformValue : String := ""
  ActualValue : String := ""
  DriftType : String := ""
deriving DecidableEq, Repr

/-- Result of one comparison (`DriftReport`).  `GeneratedAt` carries the
RFC3339-formatted wall-clock timestamp as an opaque string. -/
structure DriftReport where
  ResourceId : String := ""
  ResourceType : String := ""
  ResourceName : String := ""
  HasDrift : Bool := false
  DriftDetails : List DriftItem := []
  GeneratedAt : String := ""
  Status : String := ""
deriving DecidableEq, Repr

/-- The capability pair of the `InfrastructureResourceI` interface
(provider/platform.go): `ResourceType()` and `AttributeValue(name)`. -/
structure InfrastructureResourceI where
  ResourceType : String
  AttributeValue : String → Except String String

/-- The classification switch of `CompareStates` (default.go lines 76-92), in
Go case order, computing one attribute's drift type from the desired
(terraform) and live (actual) values. -/
def classifyDrift (terraformValue actualValue : String) : String :=
  if terraformValue = "" ∧ actualValue ≠ "" then AttributeMissingInTerraform
  else if actualValue = "" ∧ terraformValue ≠ "" then AttributeMissingInInfrastructure
  else if terraformValue ≠ actualValue then AttributeValueChanged
  else Match

/-- The attribute loop of `CompareStates` (default.go lines 55-96): an
erroring live or desired lookup skips the attribute (`continue`); otherwise
the classified item is appended and every non-MATCH case sets the overall
status to DRIFT when it is currently MATCH. -/
def driftLoop (live : InfrastructureResourceI) (desired : statemanager.StateResource) :
    List String → String → List DriftItem → String × List DriftItem
  | [], overallDrift, details => (overallDrift, details)
  | attr :: rest, overallDrift, details =>
    match live.AttributeValue attr with
    | .error _ => driftLoop live desired rest overallDrift details
    | .ok liveVal =>
      match desired.AttributeValue attr with
      | .error _ => driftLoop live desired rest overallDrift details
      | .ok desiredVal =>
        let driftType := classifyDrift desiredVal liveVal
        let overallDrift' :=
          if driftType ≠ Match then (if overallDrift = Match then Drift else overallDrift)
          else overallDrift
        driftLoop live desired rest overallDrift'
          (details ++ [{ Field := attr, TerraformValue := desiredVal,
                         ActualValue := liveVal, DriftType := driftType }])

/-- `DefaultDriftChecker.CompareStates` (default.go lines 38-102).  A nil live
resource short-circuits to a resource-level MISSING_IN_INFRASTRUCTURE report;
a resource-type mismatch is an error (Go also returns a zero-value report
beside the error, which callers discard); otherwise the attribute loop runs
from MATCH and the report is finalized from its outcome. -/
def CompareStates (liveState : Option InfrastructureResourceI)
    (desiredState : statemanager.StateResource) (attributesToTrack : List String) :
    Except String DriftReport :=
  match liveState with
  | none =>
    .ok { Status := ResourceMissingInInfrastructure, HasDrift := true }
  | some live =>
    if live.ResourceType = desiredState.ResourceType then
      let res := driftLoop live desiredState attributesToTrack Match []
      .ok { ResourceType := live.ResourceType, DriftDetails := res.2,
            Status := res.1, HasDrift := res.1 != Match }
    else
      .error ("resource type mismatch: live resource " ++ live.ResourceType ++
        " does not match desired type " ++ desiredState.ResourceType)

/-- The outcome of one iteration of the attribute loop: `none` when either
lookup errors (the attribute is skipped), otherwise the emitted item. -/
def attrItem (live : InfrastructureResourceI) (desired : statemanager.StateResource)
    (attr : String) : Option DriftItem :=
  match live.AttributeValue attr with
  | .error _ => none
  | .ok liveVal =>
    match desired.AttributeValue attr with
    | .error _ => none
    | .ok desiredVal =>
      some { Field := attr, TerraformValue := desiredVal,
             ActualValue := liveVal, DriftType := classifyDrift desiredVal liveVal }

end driftchecker

/-! ## Package aws (pkg/services/provider/aws): EC2 reservation handling -/

namespace aws

/-- AWS SDK `types.Instance` is external to this repository and carried
opaquely by the adapter, so only an identifier is modelled. -/
structure EC2Instance where
  InstanceId : String := ""
deriving DecidableEq, Repr

/-- One reservation of a DescribeInstances response; the adapter reads only
its `Instances`. -/
structure Reservation where
  Instances : List EC2Instance := []
deriving DecidableEq, Repr

/-- The adapter's live-resource wrapper `EC2InfraInstance`. -/
structure EC2InfraInstance where
  Instance : EC2Instance
deriving DecidableEq, Repr

/-- Reservation handling of `AWSProvider.handleEC2Metadata` as a function of
the DescribeInstances response (the network call is I/O, outside the model;
error strings are the Go `fmt.Errorf` results verbatim).  Go reads
`Reservations[0].Instances[0]` unchecked, so a single reservation with no
instances would panic; that out-of-range read is modelled as `none`. -/
def handleEC2Metadata (reservations : List Reservation) :
    Except String (Option EC2InfraInstance) :=
  if reservations.length = 0 then
    .error "EC2 resource with filters is not running"
  else if reservations.length ≠ 1 then
    .error "EC2 resource with id  returns duplicate result"
  else
    .ok ((reservations.headD {}).Instances.head?.map fun i => { Instance := i })

end aws

/-! ## Package reporter: the CSV reporter (CsvReporter.WriteReport) -/

namespace reporter

/-- The fixed CSV header row. -/
def csvHeader : List String :=
  ["GeneratedAt", "ResourceId", "ResourceType", "ResourceName", "HasDrift",
   "ReportStatus", "DriftField", "TerraformValue", "ActualValue", "DriftType"]

/-- Go `fmt.Sprintf("%t", b)`. -/
def formatBool (b : Bool) : String := if b then "true" else "false"

/-- The summary row written when the report has no drift or no items: report
identity columns followed by four empty drift-item columns. -/
def summaryRow (report : driftchecker.DriftReport) : List String :=
  [report.GeneratedAt, report.ResourceId, report.ResourceType, report.ResourceName,
   formatBool report.HasDrift, report.Status, "", "", "", ""]

/-- The row written for one drift item.  Go renders the `any`-typed values
with `%v`, which is the identity on the strings the engine stores. -/
def itemRow (report : driftchecker.DriftReport) (item : driftchecker.DriftItem) :
    List String :=
  [report.GeneratedAt, report.ResourceId, report.ResourceType, report.ResourceName,
   formatBool report.HasDrift, report.Status, item.Field, item.TerraformValue,
   item.ActualValue, item.DriftType]

/-- The rows `CsvReporter.WriteReport` writes (file-system errors aside): the
header, then the summary row when `!report.HasDrift || len(DriftDetails) == 0`,
else one row per drift item. -/
def WriteReport (report : driftchecker.DriftReport) : List (List String) :=
  csvHeader ::
    (if !report.HasDrift || report.DriftDetails.isEmpty then
      [summaryRow report]
    else
      report.DriftDetails.map (itemRow report))

end reporter

/-! ## Package cmd: RunDriftDetection (the dispatch pipeline) -/

namespace cmd

/-- Worker body for one resource (the loop body inside RunDriftDetection's
goroutines): provider fetch, then comparison, then report write; an error at
any step is logged in Go and the resource is skipped (`continue`), modelled
as `none`.  On success the written report is returned. -/
def processResource
    (infrastructreMetadata :
      statemanager.StateResource → Except String (Option driftchecker.InfrastructureResourceI))
    (compareStates :
      Option driftchecker.InfrastructureResourceI → statemanager.StateResource →
        List String → Except String driftchecker.DriftReport)
    (writeReport : driftchecker.DriftReport → Except String Unit)
    (attributesToTrack : List String) (resource : statemanager.StateResource) :
    Option driftchecker.DriftReport :=
  match infrastructreMetadata resource with
  | .error _ => none
  | .ok live =>
    match compareStates live resource attributesToTrack with
    | .error _ => none
    | .ok report =>
      match writeReport report with
      | .error _ => none
      | .ok _ => some report

/-- `RunDriftDetection` (the detect command), parameterized by its
collaborators as Go passes them through interfaces.  The bounded worker pool
affects only the interleaving of report writes, not the returned value or
which reports are written, so the model processes the fed resources in order
and returns the successfully written reports (Go surfaces them by side
effect).  Error-message prefixes are the Go wrappings. -/
def RunDriftDetection
    (parseStateFile : Except String statemanager.StateContent)
    (retrieveResources :
      statemanager.StateContent → String → Except String (List statemanager.StateResource))
    (resourceType : String)
    (attributesToTrack : List String)
    (infrastructreMetadata :
      statemanager.StateResource → Except String (Option driftchecker.InfrastructureResourceI))
    (compareStates :
      Option driftchecker.InfrastructureResourceI → statemanager.StateResource →
        List String → Except String driftchecker.DriftReport)
    (writeReport : driftchecker.DriftReport → Except String Unit) :
    Except String (List driftchecker.DriftReport) :=
  match parseStateFile with
  | .error e => .error ("failed to parse state file: " ++ e)
  | .ok stateContent =>
    match retrieveResources stateContent resourceType with
    | .error e => .error ("failed to retrieve resources: " ++ e)
    | .ok resources =>
      .ok (resources.filterMap
        (processResource infrastructreMetadata compareStates writeReport attributesToTrack))

end cmd

/-! ## Package terraform (pkg/services/statemanager/terraform): the state
file schema, its decoding (Go `encoding/json` semantics on already-lexed
JSON values), its marshalling, and the conversion to `StateContent`. -/

namespace Json

/-- Last-occurrence member lookup: Go's decoder fills struct fields member by
member, so a later duplicate key overwrites an earlier one.  (Go's
case-insensitive fallback match is not modelled; no claim involves it.) -/
def memberGet : List (String × Json) → String → Option Json
  | [], _ => none
  | kv :: rest, k =>
    match memberGet rest k with
    | some v => some v
    | none => if k = kv.1 then some kv.2 else none

/-- Decode a string struct field: absent or null leaves the zero value. -/
def getStr (ms : List (String × Json)) (k : String) : Except String String :=
  match memberGet ms k with
  | none => .ok ""
  | some .null => .ok ""
  | some (.str s) => .ok s
  | some _ => .error ("json: cannot unmarshal into string field " ++ k)

/-- Decode an integer struct field: absent or null leaves the zero value. -/
def getInt (ms : List (String × Json)) (k : String) : Except String Int :=
  match memberGet ms k with
  | none => .ok 0
  | some .null => .ok 0
  | some (.num n) => .ok n
  | some _ => .error ("json: cannot unmarshal into int field " ++ k)

/-- Decode a boolean struct field: absent or null leaves the zero value. -/
def getBool (ms : List (String × Json)) (k : String) : Except String Bool :=
  match memberGet ms k with
  | none => .ok false
  | some .null => .ok false
  | some (.bool b) => .ok b
  | some _ => .error ("json: cannot unmarshal into bool field " ++ k)

/-- Decode an `any` struct field: decoding arbitrary JSON into a Go
interface value never fails and canonicalizes the maps inside it. -/
def getAny (ms : List (String × Json)) (k : String) : Json :=
  match memberGet ms k with
  | none => .null
  | some v => v.canon

/-- Decode a JSON value into a Go string (for `[]string` and
`map[string]string` elements): null leaves the zero value. -/
def decodeStrE : Json → Except String String
  | .str s => .ok s
  | .null => .ok ""
  | _ => .error "json: cannot unmarshal into string"

end Json

/-- Error-propagating elementwise decoding of a JSON array into a Go
slice. -/
def mapE {α β : Type} (f : α → Except String β) : List α → Except String (List β)
  | [] => .ok []
  | a :: as =>
    match f a with
    | .error e => .error e
    | .ok b =>
      match mapE f as with
      | .error e => .error e
      | .ok bs => .ok (b :: bs)

/-- Decoding object members into a Go map, in member order with later
duplicates overwriting (Go map insertion); the accumulator keeps the
key-sorted canonical representation. -/
def decodeMapGo {α : Type} (f : Json → Except String α) :
    List (String × Json) → List (String × α) → Except String (List (String × α))
  | [], acc => .ok acc
  | (k, j) :: rest, acc =>
    match f j with
    | .error e => .error e
    | .ok v => decodeMapGo f rest (sortInsertR acc k v)

/-- Decode object members into a Go map (entry point). -/
def decodeMap {α : Type} (f : Json → Except String α) (ms : List (String × Json)) :
    Except String (List (String × α)) :=
  decodeMapGo f ms []

namespace Json

/-- Decode a nil-able slice struct field (`[]T` without omitempty): absent or
null is the nil slice. -/
def getOptArrWith {α : Type} (f : Json → Except String α) (ms : List (String × Json))
    (k : String) : Except String (Option (List α)) :=
  match memberGet ms k with
  | none => .ok none
  | some .null => .ok none
  | some (.arr es) =>
    match mapE f es with
    | .error e => .error e
    | .ok xs => .ok (some xs)
  | some _ => .error ("json: cannot unmarshal into slice field " ++ k)

/-- Decode a slice struct field whose omitempty tag makes nil and empty
indistinguishable after marshalling; both are the empty list here. -/
def getArrWithD {α : Type} (f : Json → Except String α) (ms : List (String × Json))
    (k : String) : Except String (List α) :=
  match memberGet ms k with
  | none => .ok []
  | some .null => .ok []
  | some (.arr es) => mapE f es
  | some _ => .error ("json: cannot unmarshal into slice field " ++ k)

/-- Decode a nil-able map struct field (`map[string]T` without omitempty):
absent or null is the nil map. -/
def getOptMapWith {α : Type} (f : Json → Except String α) (ms : List (String × Json))
    (k : String) : Except String (GoMap α) :=
  match memberGet ms k with
  | none => .ok none
  | some .null => .ok none
  | some (.obj mems) =>
    match decodeMap f mems with
    | .error e => .error e
    | .ok m => .ok (some m)
  | some _ => .error ("json: cannot unmarshal into map field " ++ k)

/-- Decode a map struct field with an omitempty tag (nil and empty conflated
as the empty list). -/
def getMapWithD {α : Type} (f : Json → Except String α) (ms : List (String × Json))
    (k : String) : Except String (List (String × α)) :=
  match memberGet ms k with
  | none => .ok []
  | some .null => .ok []
  | some (.obj mems) => decodeMap f mems
  | some _ => .error ("json: cannot unmarshal into map field " ++ k)

/-- Decode a pointer-to-struct field (`*T`): absent or null is the nil
pointer. -/
def getOptStructWith {α : Type} (f : Json → Except String α) (ms : List (String × Json))
    (k : String) : Except String (Option α) :=
  match memberGet ms k with
  | none => .ok none
  | some .null => .ok none
  | some j =>
    match f j with
    | .error e => .error e
    | .ok v => .ok (some v)

/-- Decode a pointer element inside a slice (`[]*T`): null is nil. -/
def decodePtrWith {α : Type} (f : Json → Except String α) : Json → Except String (Option α)
  | .null => .ok none
  | j =>
    match f j with
    | .error e => .error e
    | .ok v => .ok (some v)

end Json

namespace terraform

/-- A Terraform output value (tfstateparser.go `Output`).  The Go field
`Type` is named `TType` because `Type` is reserved in Lean. -/
structure Output where
  Value : Json := .null
  TType : Json := .null
  Sensitive : Bool := false

/-- A resource instance (tfstateparser.go `Instance`).  Slice and map fields
tagged omitempty are plain lists (their nil/empty distinction is
unobservable after marshalling); `Attributes` has no omitempty tag so the
nil map stays distinguishable. -/
structure Instance where
  SchemaVersion : Int := 0
  Attributes : GoMap Json := none
  AttributesFlat : List (String × String) := []
  Private : String := ""
  Dependencies : List String := []
  IndexKey : Json := .null
  Status : String := ""
  Deposed : String := ""
  CreateBeforeDestroy : Bool := false

/-- A Terraform resource in the state (tfstateparser.go `Resource`); `Type`
is named `RType`. -/
structure Resource where
  Mode : String := ""
  RType : String := ""
  Name : String := ""
  Provider : String := ""
  Instances : Option (List Instance) := none
  EachMode : String := ""
  Module : String := ""

/-- Resource format of older state versions (tfstateparser.go
`LegacyResource`); `Type` is named `LType`. -/
structure LegacyResource where
  LType : String := ""
  Primary : Option Instance := none
  Deposed : Option (List (Option Instance)) := none
  Provider : String := ""
  Dependencies : Option (List String) := none

/-- A Terraform module for older state versions (tfstateparser.go
`Module`). -/
structure Module where
  Path : Option (List String) := none
  Outputs : GoMap Output := none
  Resources : GoMap LegacyResource := none
  Dependencies : Option (List String) := none

/-- Root structure of a .tfstate file (tfstateparser.go `TerraformState`). -/
structure TerraformState where
  Version : Int := 0
  TerraformVersion : String := ""
  Serial : Int := 0
  Lineage : String := ""
  Outputs : GoMap Output := none
  Resources : Option (List Resource) := none
  CheckResults : Json := .null
  Modules : List Module := []

/-- Decode one `Output` (Go unmarshal semantics: null leaves the zero
struct, non-object errors). -/
def decodeOutput : Json → Except String Output
  | .null => .ok {}
  | .obj ms =>
    match Json.getBool ms "sensitive" with
    | .error e => .error e
    | .ok sens =>
      .ok { Value := Json.getAny ms "value", TType := Json.getAny ms "type",
            Sensitive := sens }
  | _ => .error "json: cannot unmarshal into Output"

/-- Decode one `Instance`. -/
def decodeInstance : Json → Except String Instance
  | .null => .ok {}
  | .obj ms =>
    match Json.getInt ms "schema_version" with
    | .error e => .error e
    | .ok sv =>
    match Json.getOptMapWith (fun j => .ok j.canon) ms "attributes" with
    | .error e => .error e
    | .ok attrs =>
    match Json.getMapWithD Json.decodeStrE ms "attributes_flat" with
    | .error e => .error e
    | .ok aflat =>
    match Json.getStr ms "private" with
    | .error e => .error e
    | .ok pv =>
    match Json.getArrWithD Json.decodeStrE ms "dependencies" with
    | .error e => .error e
    | .ok deps =>
    match Json.getStr ms "status" with
    | .error e => .error e
    | .ok st =>
    match Json.getStr ms "deposed" with
    | .error e => .error e
    | .ok dep =>
    match Json.getBool ms "create_before_destroy" with
    | .error e => .error e
    | .ok cbd =>
      .ok { SchemaVersion := sv, Attributes := attrs, AttributesFlat := aflat,
            Private := pv, Dependencies := deps,
            IndexKey := Json.getAny ms "index_key", Status := st, Deposed := dep,
            CreateBeforeDestroy := cbd }
  | _ => .error "json: cannot unmarshal into Instance"

/-- Decode one `Resource`. -/
def decodeResource : Json → Except String Resource
  | .null => .ok {}
  | .obj ms =>
    match Json.getStr ms "mode" with
    | .error e => .error e
    | .ok mode =>
    match Json.getStr ms "type" with
    | .error e => .error e
    | .ok ty =>
    match Json.getStr ms "name" with
    | .error e => .error e
    | .ok name =>
    match Json.getStr ms "provider" with
    | .error e => .error e
    | .ok prov =>
    match Json.getOptArrWith decodeInstance ms "instances" with
    | .error e => .error e
    | .ok insts =>
    match Json.getStr ms "each" with
    | .error e => .error e
    | .ok each =>
    match Json.getStr ms "module" with
    | .error e => .error e
    | .ok md =>
      .ok { Mode := mode, RType := ty, Name := name, Provider := prov,
            Instances := insts, EachMode := each, Module := md }
  | _ => .error "json: cannot unmarshal into Resource"

/-- Decode one `LegacyResource`. -/
def decodeLegacyResource : Json → Except String LegacyResource
  | .null => .ok {}
  | .obj ms =>
    match Json.getStr ms "type" with
    | .error e => .error e
    | .ok ty =>
    match Json.getOptStructWith decodeInstance ms "primary" with
    | .error e => .error e
    | .ok prim =>
    match Json.getOptArrWith (Json.decodePtrWith decodeInstance) ms "deposed" with
    | .error e => .error e
    | .ok depo =>
    match Json.getStr ms "provider" with
    | .error e => .error e
    | .ok prov =>
    match Json.getOptArrWith Json.decodeStrE ms "depends_on" with
    | .error e => .error e
    | .ok deps =>
      .ok { LType := ty, Primary := prim, Deposed := depo, Provider := prov,
            Dependencies := deps }
  | _ => .error "json: cannot unmarshal into LegacyResource"

/-- Decode one `Module`. -/
def decodeModule : Json → Except String Module
  | .null => .ok {}
  | .obj ms =>
    match Json.getOptArrWith Json.decodeStrE ms "path" with
    | .error e => .error e
    | .ok path =>
    match Json.getOptMapWith decodeOutput ms "outputs" with
    | .error e => .error e
    | .ok outs =>
    match Json.getOptMapWith decodeLegacyResource ms "resources" with
    | .error e => .error e
    | .ok ress =>
    match Json.getOptArrWith Json.decodeStrE ms "dependencies" with
    | .error e => .error e
    | .ok deps =>
      .ok { Path := path, Outputs := outs, Resources := ress, Dependencies := deps }
  | _ => .error "json: cannot unmarshal into Module"

/-- Decode the root `TerraformState`. -/
def decodeTerraformState : Json → Except String TerraformState
  | .null => .ok {}
  | .obj ms =>
    match Json.getInt ms "version" with
    | .error e => .error e
    | .ok ver =>
    match Json.getStr ms "terraform_version" with
    | .error e => .error e
    | .ok tv =>
    match Json.getInt ms "serial" with
    | .error e => .error e
    | .ok serial =>
    match Json.getStr ms "lineage" with
    | .error e => .error e
    | .ok lin =>
    match Json.getOptMapWith decodeOutput ms "outputs" with
    | .error e => .error e
    | .ok outs =>
    match Json.getOptArrWith decodeResource ms "resources" with
    | .error e => .error e
    | .ok ress =>
    match Json.getArrWithD decodeModule ms "modules" with
    | .error e => .error e
    | .ok mods =>
      .ok { Version := ver, TerraformVersion := tv, Serial := serial, Lineage := lin,
            Outputs := outs, Resources := ress,
            CheckResults := Json.getAny ms "check_results", Modules := mods }
  | _ => .error "json: cannot unmarshal into TerraformState"

/-- `StateParser.ParseBytes` (tfparser lines 128-136): unmarshal the bytes
into `TerraformState`.  Inputs are modelled at the JSON-value level (the
file's bytes are `Json.render` of the value); byte sequences that are not
valid JSON fail before reaching the schema and are excluded by the claims'
"valid input" premise. -/
def ParseBytes (data : Json) : Except String TerraformState :=
  decodeTerraformState data

/-- Marshal a nil-able Go map field. -/
def goMapJson {α : Type} (f : α → Json) : GoMap α → Json
  | none => .null
  | some l => .obj (l.map fun p => (p.1, f p.2))

/-- Marshal a nil-able Go slice field. -/
def optListJson {α : Type} (f : α → Json) : Option (List α) → Json
  | none => .null
  | some es => .arr (es.map f)

/-- Marshal a nil-able pointer-to-struct field. -/
def optStructJson {α : Type} (f : α → Json) : Option α → Json
  | none => .null
  | some x => f x

/-- Members emitted by `json.Marshal` for an `Output` (declaration order,
omitempty on `sensitive`). -/
def Output.toJsonMembers (o : Output) : List (String × Json) :=
  [("value", o.Value), ("type", o.TType)]
    ++ (if o.Sensitive then [("sensitive", Json.bool true)] else [])

/-- Marshalled `Output`. -/
def Output.toJson (o : Output) : Json := .obj o.toJsonMembers

/-- Members emitted by `json.Marshal` for an `Instance`. -/
def Instance.toJsonMembers (i : Instance) : List (String × Json) :=
  [("schema_version", Json.num i.SchemaVersion),
   ("attributes", goMapJson id i.Attributes)]
    ++ (if i.AttributesFlat.isEmpty then [] else
      [("attributes_flat", Json.obj (i.AttributesFlat.map fun p => (p.1, Json.str p.2)))])
    ++ (if i.Private = "" then [] else [("private", Json.str i.Private)])
    ++ (if i.Dependencies.isEmpty then [] else
      [("dependencies", Json.arr (i.Dependencies.map Json.str))])
    ++ (if i.IndexKey.isNull then [] else [("index_key", i.IndexKey)])
    ++ (if i.Status = "" then [] else [("status", Json.str i.Status)])
    ++ (if i.Deposed = "" then [] else [("deposed", Json.str i.Deposed)])
    ++ (if i.CreateBeforeDestroy then [("create_before_destroy", Json.bool true)] else [])

/-- Marshalled `Instance`. -/
def Instance.toJson (i : Instance) : Json := .obj i.toJsonMembers

/-- Members emitted by `json.Marshal` for a `Resource`. -/
def Resource.toJsonMembers (r : Resource) : List (String × Json) :=
  [("mode", Json.str r.Mode), ("type", Json.str r.RType), ("name", Json.str r.Name),
   ("provider", Json.str r.Provider),
   ("instances", optListJson Instance.toJson r.Instances)]
    ++ (if r.EachMode = "" then [] else [("each", Json.str r.EachMode)])
    ++ (if r.Module = "" then [] else [("module", Json.str r.Module)])

/-- Marshalled `Resource`. -/
def Resource.toJson (r : Resource) : Json := .obj r.toJsonMembers

/-- Members emitted by `json.Marshal` for a `LegacyResource` (no omitempty
tags). -/
def LegacyResource.toJsonMembers (lr : LegacyResource) : List (String × Json) :=
  [("type", Json.str lr.LType),
   ("primary", optStructJson Instance.toJson lr.Primary),
   ("deposed", optListJson (optStructJson Instance.toJson) lr.Deposed),
   ("provider", Json.str lr.Provider),
   ("depends_on", optListJson Json.str lr.Dependencies)]

/-- Marshalled `LegacyResource`. -/
def LegacyResource.toJson (lr : LegacyResource) : Json := .obj lr.toJsonMembers

/-- Members emitted by `json.Marshal` for a `Module` (no omitempty tags). -/
def Module.toJsonMembers (m : Module) : List (String × Json) :=
  [("path", optListJson Json.str m.Path),
   ("outputs", goMapJson Output.toJson m.Outputs),
   ("resources", goMapJson LegacyResource.toJson m.Resources),
   ("dependencies", optListJson Json.str m.Dependencies)]

/-- Marshalled `Module`. -/
def Module.toJson (m : Module) : Json := .obj m.toJsonMembers

/-- Members emitted by `json.Marshal` for the root `TerraformState`
(omitempty on `check_results` and `modules` only). -/
def TerraformState.toJsonMembers (ts : TerraformState) : List (String × Json) :=
  [("version", Json.num ts.Version), ("terraform_version", Json.str ts.TerraformVersion),
   ("serial", Json.num ts.Serial), ("lineage", Json.str ts.Lineage),
   ("outputs", goMapJson Output.toJson ts.Outputs),
   ("resources", optListJson Resource.toJson ts.Resources)]
    ++ (if ts.CheckResults.isNull then [] else [("check_results", ts.CheckResults)])
    ++ (if ts.Modules.isEmpty then [] else [("modules", Json.arr (ts.Modules.map Module.toJson))])

/-- Marshalled `TerraformState`. -/
def TerraformState.toJson (ts : TerraformState) : Json := .obj ts.toJsonMembers

/-- Go `json.Marshal(tfState)`: the bytes stored into `RawState` by
`ConvertTerraformStateToStateContent` (terraform.go lines 116-123). -/
def marshalTerraformState (ts : TerraformState) : String :=
  (TerraformState.toJson ts).render

/-- `ConvertTerraformStateToStateContent` (terraform.go lines 74-126).  The
`json.Marshal` error branch is unreachable for this data, so the result is
always `ok`; the `Except` return mirrors the Go signature. -/
def ConvertTerraformStateToStateContent (tfState : TerraformState) :
    Except String statemanager.StateContent :=
  .ok { StateVersion := toString tfState.Version,
        Tool := statemanager.TerraformTool,
        ToolVersion := tfState.TerraformVersion,
        ToolMetadata := [("serial", Json.num tfState.Serial)],
        SchemaVersion := toString tfState.Version,
        StateId := tfState.Lineage,
        Backend := {},
        Resource := (tfState.Resources.getD []).map fun res =>
          { Mode := res.Mode, Module := res.Module, Name := res.Name,
            RType := res.RType, Provider := res.Provider,
            ToolData := if res.EachMode ≠ "" then [("each_mode", Json.str res.EachMode)] else [],
            Instances := (res.Instances.getD []).map fun inst =>
              { ScheamVersion := inst.SchemaVersion, Attributes := inst.Attributes,
                Dependencies := inst.Dependencies } },
        RawState := marshalTerraformState tfState }

/-- Canonicity of a decoded Go map: key-sorted with pointwise-canonical
values. -/
def GoMapCanonP {α : Type} (P : α → Prop) : GoMap α → Prop
  | none => True
  | some l => sortedKeys l ∧ ∀ p ∈ l, P p.2

/-- Canonicity of a decoded `Output`. -/
def Output.Canon (o : Output) : Prop := o.Value.IsCanon ∧ o.TType.IsCanon

/-- Canonicity of a decoded `Instance`. -/
def Instance.Canon (i : Instance) : Prop :=
  GoMapCanonP Json.IsCanon i.Attributes ∧ sortedKeys i.AttributesFlat ∧ i.IndexKey.IsCanon

/-- Canonicity of a decoded `Resource`. -/
def Resource.Canon (r : Resource) : Prop := ∀ i ∈ r.Instances.getD [], i.Canon

/-- Canonicity of a decoded `LegacyResource`. -/
def LegacyResource.Canon (lr : LegacyResource) : Prop :=
  (∀ i, lr.Primary = some i → i.Canon) ∧
  (∀ oi ∈ lr.Deposed.getD [], ∀ i, oi = some i → i.Canon)

/-- Canonicity of a decoded `Module`. -/
def Module.Canon (m : Module) : Prop :=
  GoMapCanonP Output.Canon m.Outputs ∧ GoMapCanonP LegacyResource.Canon m.Resources

/-- Canonicity of a decoded `TerraformState`: the shape every
`decodeTerraformState` result has, and on which marshalling is a
left-inverse of decoding. -/
def TerraformState.Canon (ts : TerraformState) : Prop :=
  GoMapCanonP Output.Canon ts.Outputs ∧ (∀ r ∈ ts.Resources.getD [], r.Canon) ∧
    ts.CheckResults.IsCanon ∧ ∀ m ∈ ts.Modules, m.Canon

end terraform

/-! ## Spec-side definitions and concrete fixtures -/

namespace driftchecker

/-- Modelled from the spec: the per-attribute classification table of §4.3,
row by row in the spec's order; claim C1 compares the code's switch against
this table. -/
def specDriftTable (desiredVal liveVal : String) : String :=
  if desiredVal = "" ∧ liveVal = "" then Match
  else if desiredVal = "" ∧ liveVal ≠ "" then AttributeMissingInTerraform
  else if desiredVal ≠ "" ∧ liveVal = "" then AttributeMissingInInfrastructure
  else if desiredVal ≠ liveVal then AttributeValueChanged
  else Match

/-- Whether some emitted item is non-MATCH (drives the overall status). -/
def hasNonMatch (l : List DriftItem) : Bool :=
  l.any fun i => i.DriftType != Match

end driftchecker

/-- Concrete live EC2-style resource used by witnesses. -/
def cLive : driftchecker.InfrastructureResourceI :=
  { ResourceType := "aws_instance",
    AttributeValue := fun a =>
      if a = "instance_type" then .ok "t2.micro"
      else if a = "ami" then .error "attribute is not supported"
      else .ok "" }

/-- Concrete desired-state resource used by witnesses. -/
def cDesired : statemanager.StateResource :=
  { RType := "aws_instance",
    Instances := [{ Attributes := some (
      [("id", Json.str "i-1"), ("instance_type", Json.str "t2.micro"),
       ("cpu_core_count", Json.num 2)]) }] }

/-- Concrete desired-state resource of a different type. -/
def cDesiredBucket : statemanager.StateResource :=
  { RType := "aws_s3_bucket", Instances := [{ Attributes := some [] }] }

/-- The report `CompareStates` produces for `cLive`/`cDesired` over
`instance_type`: an all-MATCH report with one item. -/
def cMatchReport : driftchecker.DriftReport :=
  { ResourceType := "aws_instance", HasDrift := false,
    DriftDetails := [{ Field := "instance_type", TerraformValue := "t2.micro",
                       ActualValue := "t2.micro", DriftType := "MATCH" }],
    Status := "MATCH" }

/-- The report `CompareStates` produces for a nil live resource. -/
def cNilLiveReport : driftchecker.DriftReport :=
  { HasDrift := true, Status := "MISSING_IN_INFRASTRUCTURE" }

/-- A concrete state content for pipeline witnesses. -/
def cStateContent : statemanager.StateContent := {}

/-- A concrete valid state-file input (as a JSON value) for the rawState
witness. -/
def cJ6 : Json := Json.obj [("version", Json.num 4), ("lineage", Json.str "abc")]

/-- The TerraformState decoded from `cJ6`. -/
def cTs6 : terraform.TerraformState := { Version := 4, Lineage := "abc" }

/-- The StateContent converted from `cTs6`. -/
def cSc6 : statemanager.StateContent :=
  { StateVersion := "4", Tool := "terraform", ToolVersion := "",
    ToolMetadata := [("serial", Json.num 0)], SchemaVersion := "4",
    StateId := "abc", Resource := [],
    RawState := terraform.marshalTerraformState cTs6 }

/-! ## Theorems: the drift engine -/

namespace driftchecker

theorem Drift_ne_Match : Drift ≠ Match := by decide

theorem hasNonMatch_cons (i : DriftItem) (l : List DriftItem) :
    hasNonMatch (i :: l) = ((i.DriftType != Match) || hasNonMatch l) := by
  simp [hasNonMatch]

/-- The attribute loop equals: filter-map the per-attribute outcomes onto the
accumulated details, and raise MATCH to DRIFT exactly when some emitted item
is non-MATCH. -/
theorem driftLoop_eq (live : InfrastructureResourceI) (desired : statemanager.StateResource)
    (attrs : List String) (overall : String) (details : List DriftItem) :
    driftLoop live desired attrs overall details =
      ((if overall = Match then
          (if hasNonMatch (attrs.filterMap (attrItem live desired)) then Drift else overall)
        else overall),
       details ++ attrs.filterMap (attrItem live desired)) := by
  induction attrs generalizing overall details with
  | nil => simp [driftLoop, hasNonMatch]
  | cons a rest ih =>
    cases h1 : live.AttributeValue a with
    | error e =>
      have hA : attrItem live desired a = none := by simp [attrItem, h1]
      simp [driftLoop, h1, hA, ih]
    | ok lv =>
      cases h2 : desired.AttributeValue a with
      | error e =>
        have hA : attrItem live desired a = none := by simp [attrItem, h1, h2]
        simp [driftLoop, h1, h2, hA, ih]
      | ok dv =>
        have hA : attrItem live desired a =
            some { Field := a, TerraformValue := dv, ActualValue := lv,
                   DriftType := classifyDrift dv lv } := by
          simp [attrItem, h1, h2]
        simp only [driftLoop, h1, h2]
        rw [ih]
        simp only [List.filterMap_cons, hA, Option.toList_some]
        by_cases ht : classifyDrift dv lv = Match <;> by_cases ho : overall = Match <;>
          simp [ht, ho, hasNonMatch_cons, Drift_ne_Match, bne_iff_ne]

/-- With a live resource of matching type, `CompareStates` succeeds with the
filter-mapped item list, status DRIFT exactly on a non-MATCH item, and
`HasDrift` mirroring that condition. -/
theorem CompareStates_some_eq (live : InfrastructureResourceI)
    (desired : statemanager.StateResource) (attrs : List String)
    (h : live.ResourceType = desired.ResourceType) :
    CompareStates (some live) desired attrs =
      .ok { ResourceType := live.ResourceType,
            DriftDetails := attrs.filterMap (attrItem live desired),
            Status := if hasNonMatch (attrs.filterMap (attrItem live desired)) then Drift
                      else Match,
            HasDrift := hasNonMatch (attrs.filterMap (attrItem live desired)) } := by
  simp only [CompareStates, h, if_pos]
  rw [driftLoop_eq]
  by_cases hNM : hasNonMatch (attrs.filterMap (attrItem live desired)) = true <;>
    simp [hNM, Drift_ne_Match]

/-- The code's classification switch agrees pointwise with the spec's
three-valued table. -/
theorem classifyDrift_eq_spec (dv lv : String) : classifyDrift dv lv = specDriftTable dv lv := by
  unfold classifyDrift specDriftTable
  by_cases h1 : dv = "" <;> by_cases h2 : lv = "" <;> by_cases h3 : dv = lv <;> simp_all

/-- Anatomy of a non-skipped attribute outcome. -/
theorem attrItem_spec (live : InfrastructureResourceI) (desired : statemanager.StateResource)
    (a : String) (item : DriftItem) (h : attrItem live desired a = some item) :
    item.Field = a ∧ item.DriftType = classifyDrift item.TerraformValue item.ActualValue ∧
      live.AttributeValue a = .ok item.ActualValue ∧
      desired.AttributeValue a = .ok item.TerraformValue := by
  cases h1 : live.AttributeValue a with
  | error e => simp [attrItem, h1] at h
  | ok lv =>
    cases h2 : desired.AttributeValue a with
    | error e => simp [attrItem, h1, h2] at h
    | ok dv =>
      simp only [attrItem, h1, h2] at h
      cases h
      exact ⟨rfl, rfl, rfl, rfl⟩

/-- Bridge between the boolean any-non-MATCH test and its existential
reading. -/
theorem hasNonMatch_iff (its : List DriftItem) :
    hasNonMatch its = true ↔ ∃ item ∈ its, item.DriftType ≠ Match := by
  simp [hasNonMatch, List.any_eq_true, bne_iff_ne]

/-- The finalized status is DRIFT exactly when some emitted item is
non-MATCH. -/
theorem statusOf_eq_drift_iff (its : List DriftItem) :
    (if hasNonMatch its then Drift else Match) = Drift ↔
      ∃ item ∈ its, item.DriftType ≠ Match := by
  by_cases h : hasNonMatch its = true
  · rw [if_pos h]
    exact iff_of_true rfl ((hasNonMatch_iff its).mp h)
  · rw [if_neg h]
    constructor
    · intro hMD; exact absurd hMD (by decide)
    · intro hex; exact absurd ((hasNonMatch_iff its).mpr hex) h

/-- An attribute is processed (not skipped) exactly when both lookups
succeed. -/
theorem attrItem_isSome_iff (live : InfrastructureResourceI)
    (desired : statemanager.StateResource) (a : String) :
    (attrItem live desired a).isSome = true ↔
      (∃ v, live.AttributeValue a = .ok v) ∧ ∃ v, desired.AttributeValue a = .ok v := by
  cases h1 : live.AttributeValue a <;> cases h2 : desired.AttributeValue a <;>
    simp [attrItem, h1, h2]

/-- C1.  For every non-null live resource and desired resource of equal
resource type, and every tracked attribute whose live and desired lookups
both succeed, CompareStates classifies the attribute's DriftItem exactly by
the spec's three-valued table (both empty: MATCH; desired empty, live
non-empty: MISSING_IN_TERRAFORM; desired non-empty, live empty:
MISSING_IN_INFRASTRUCTURE; both non-empty unequal: VALUE_CHANGED; equal:
MATCH), and the overall status moves from MATCH to DRIFT on the first
non-MATCH item and never returns to MATCH afterwards (it is DRIFT exactly
when some emitted item is non-MATCH, and once the loop has reached DRIFT on
a prefix the final status stays DRIFT). -/
theorem C1_CompareStates_classification (live : InfrastructureResourceI)
    (desired : statemanager.StateResource) (attrs : List String) (r : DriftReport)
    (hty : live.ResourceType = desired.ResourceType)
    (hok : CompareStates (some live) desired attrs = .ok r) :
    (∀ item ∈ r.DriftDetails,
        item.DriftType = specDriftTable item.TerraformValue item.ActualValue)
    ∧ (∀ a ∈ attrs, ∀ lv dv, live.AttributeValue a = .ok lv →
        desired.AttributeValue a = .ok dv →
        ({ Field := a, TerraformValue := dv, ActualValue := lv,
           DriftType := specDriftTable dv lv } : DriftItem) ∈ r.DriftDetails)
    ∧ (r.Status = Match ∨ r.Status = Drift)
    ∧ (r.Status = Drift ↔ ∃ item ∈ r.DriftDetails, item.DriftType ≠ Match)
    ∧ (∀ p q, attrs = p ++ q → (driftLoop live desired p Match []).1 = Drift →
        r.Status = Drift) := by
  rw [CompareStates_some_eq live desired attrs hty] at hok
  injection hok with hr
  have hD : r.DriftDetails = attrs.filterMap (attrItem live desired) := by rw [← hr]
  have hS : r.Status =
      (if hasNonMatch (attrs.filterMap (attrItem live desired)) then Drift else Match) := by
    rw [← hr]
  refine ⟨?_, ?_, ?_, ?_, ?_⟩
  · intro item hmem
    rw [hD] at hmem
    obtain ⟨a, _, hsome⟩ := List.mem_filterMap.mp hmem
    obtain ⟨-, hDT, -, -⟩ := attrItem_spec live desired a item hsome
    rw [hDT, classifyDrift_eq_spec]
  · intro a ha lv dv h1 h2
    rw [hD]
    refine List.mem_filterMap.mpr ⟨a, ha, ?_⟩
    simp [attrItem, h1, h2, classifyDrift_eq_spec]
  · rw [hS]
    by_cases hNM : hasNonMatch (attrs.filterMap (attrItem live desired)) = true
    · rw [if_pos hNM]; right; rfl
    · rw [if_neg hNM]; left; rfl
  · rw [hS, hD]
    exact statusOf_eq_drift_iff _
  · intro p q hpq hdrift
    subst hpq
    rw [driftLoop_eq] at hdrift
    have hdrift' :
        (if hasNonMatch (p.filterMap (attrItem live desired)) then Drift else Match)
          = Drift := by
      simpa using hdrift
    obtain ⟨item, hmem, hne⟩ := (statusOf_eq_drift_iff _).mp hdrift'
    rw [hS]
    refine (statusOf_eq_drift_iff _).mpr ⟨item, ?_, hne⟩
    rw [List.filterMap_append]
    exact List.mem_append_left _ hmem

/-- Witness for C1 at a concrete matching input. -/
theorem C1_witness :
    ({ Field := "instance_type", TerraformValue := "t2.micro", ActualValue := "t2.micro",
       DriftType := specDriftTable "t2.micro" "t2.micro" } : DriftItem)
      ∈ cMatchReport.DriftDetails :=
  (C1_CompareStates_classification cLive cDesired ["instance_type"] cMatchReport rfl
    rfl).2.1 "instance_type" (by simp) "t2.micro" "t2.micro" rfl rfl

/-- C2.  Every report CompareStates returns without error satisfies
`hasDrift = true` iff `status ≠ MATCH`. -/
theorem C2_hasDrift_iff_status (liveState : Option InfrastructureResourceI)
    (desired : statemanager.StateResource) (attrs : List String) (r : DriftReport)
    (hok : CompareStates liveState desired attrs = .ok r) :
    r.HasDrift = true ↔ r.Status ≠ Match := by
  cases liveState with
  | none =>
    simp only [CompareStates] at hok
    injection hok with hr
    have hH : r.HasDrift = true := by rw [← hr]
    have hS : r.Status = ResourceMissingInInfrastructure := by rw [← hr]
    rw [hH, hS]
    simp [ResourceMissingInInfrastructure, Match]
  | some live =>
    by_cases hty : live.ResourceType = desired.ResourceType
    · rw [CompareStates_some_eq live desired attrs hty] at hok
      injection hok with hr
      have hH : r.HasDrift = hasNonMatch (attrs.filterMap (attrItem live desired)) := by
        rw [← hr]
      have hS : r.Status =
          (if hasNonMatch (attrs.filterMap (attrItem live desired)) then Drift
           else Match) := by
        rw [← hr]
      rw [hH, hS]
      by_cases hNM : hasNonMatch (attrs.filterMap (attrItem live desired)) = true
      · rw [if_pos hNM, hNM]
        simp [Drift_ne_Match]
      · rw [if_neg hNM]
        rw [Bool.not_eq_true] at hNM
        rw [hNM]
        simp
    · simp [CompareStates, hty] at hok

/-- Witness for C2 at the nil-live input. -/
theorem C2_witness : cNilLiveReport.HasDrift = true ↔ cNilLiveReport.Status ≠ Match :=
  C2_hasDrift_iff_status none cDesired [] cNilLiveReport rfl

/-- C3.  For every desired resource and tracked-attribute list, a nil live
resource yields, without error, a report with status
MISSING_IN_INFRASTRUCTURE, hasDrift true, and no per-attribute items. -/
theorem C3_nil_live_report (desired : statemanager.StateResource) (attrs : List String) :
    ∃ r, CompareStates none desired attrs = .ok r ∧
      r.Status = ResourceMissingInInfrastructure ∧ r.HasDrift = true ∧
      r.DriftDetails = [] :=
  ⟨_, rfl, rfl, rfl, rfl⟩

/-- C4.  A non-null live resource whose type differs from the desired type
makes CompareStates fail with the resource-type-mismatch error (the Go code
also returns a zero-value report beside the non-nil error; callers discard
it). -/
theorem C4_type_mismatch (live : InfrastructureResourceI)
    (desired : statemanager.StateResource) (attrs : List String)
    (hne : live.ResourceType ≠ desired.ResourceType) :
    CompareStates (some live) desired attrs =
      .error ("resource type mismatch: live resource " ++ live.ResourceType ++
        " does not match desired type " ++ desired.ResourceType) := by
  simp [CompareStates, hne]

/-- Witness for C4 at a concrete mismatched pair. -/
theorem C4_witness :
    CompareStates (some cLive) cDesiredBucket [] =
      .error ("resource type mismatch: live resource " ++ cLive.ResourceType ++
        " does not match desired type " ++ cDesiredBucket.ResourceType) :=
  C4_type_mismatch cLive cDesiredBucket [] (by decide)

/-- Auxiliary: filter-mapping keeps full length exactly when every element
maps to `some`. -/
theorem length_filterMap_eq_iff {α β : Type} (f : α → Option β) (l : List α) :
    (l.filterMap f).length = l.length ↔ ∀ a ∈ l, (f a).isSome := by
  induction l with
  | nil => simp
  | cons a rest ih =>
    cases h : f a with
    | none =>
      have hle := List.length_filterMap_le f rest
      simp only [List.filterMap_cons, h, List.length_cons]
      constructor
      · intro hlen; omega
      · intro hall
        have := hall a (List.mem_cons_self a rest)
        simp [h] at this
    | some b =>
      simp [List.filterMap_cons, h, ih]

/-- Auxiliary: dropping the skipped elements does not change a
filter-map. -/
theorem filterMap_filter_isSome {α β : Type} (f : α → Option β) (l : List α) :
    (l.filter fun a => (f a).isSome).filterMap f = l.filterMap f := by
  induction l with
  | nil => simp
  | cons a rest ih =>
    cases h : f a with
    | none => simp [List.filter_cons, List.filterMap_cons, h, ih]
    | some b => simp [List.filter_cons, List.filterMap_cons, h, ih]

/-- C5.  With a matching live resource, an attribute whose live-side or
desired-side lookup errors is skipped entirely: it emits no drift item and
does not change the overall result (the report equals the one computed over
only the non-failing attributes).  Hence `driftDetails` has length at most
`|attrs|`, with equality exactly when no lookup fails; an empty attribute
list and a desired resource with zero instances each yield a MATCH report
with empty details. -/
theorem C5_skipped_attributes (live : InfrastructureResourceI)
    (desired : statemanager.StateResource) (attrs : List String) (r : DriftReport)
    (hty : live.ResourceType = desired.ResourceType)
    (hok : CompareStates (some live) desired attrs = .ok r) :
    r.DriftDetails.length ≤ attrs.length
    ∧ (r.DriftDetails.length = attrs.length ↔
        ∀ a ∈ attrs, (∃ v, live.AttributeValue a = .ok v) ∧
          ∃ v, desired.AttributeValue a = .ok v)
    ∧ (∀ a, ((∃ e, live.AttributeValue a = .error e) ∨
          ∃ e, desired.AttributeValue a = .error e) →
        ∀ item ∈ r.DriftDetails, item.Field ≠ a)
    ∧ CompareStates (some live) desired attrs
        = CompareStates (some live) desired
            (attrs.filter fun a => (attrItem live desired a).isSome)
    ∧ (attrs = [] → r.Status = Match ∧ r.DriftDetails = [])
    ∧ (desired.Instances = [] → r.Status = Match ∧ r.DriftDetails = []) := by
  have hnil : desired.Instances = [] →
      ∀ a, attrItem live desired a = none := by
    intro hI a
    cases h1 : live.AttributeValue a with
    | error e => simp [attrItem, h1]
    | ok lv =>
      have h2 : desired.AttributeValue a = .error "No Instance for resource" := by
        simp [statemanager.StateResource.AttributeValue, hI]
      simp [attrItem, h1, h2]
  rw [CompareStates_some_eq live desired attrs hty] at hok
  injection hok with hr
  have hD : r.DriftDetails = attrs.filterMap (attrItem live desired) := by rw [← hr]
  have hS : r.Status =
      (if hasNonMatch (attrs.filterMap (attrItem live desired)) then Drift else Match) := by
    rw [← hr]
  refine ⟨?_, ?_, ?_, ?_, ?_, ?_⟩
  · rw [hD]
    exact List.length_filterMap_le (attrItem live desired) attrs
  · rw [hD, length_filterMap_eq_iff]
    refine forall_congr' fun a => ?_
    refine imp_congr Iff.rfl ?_
    rw [← attrItem_isSome_iff live desired a]
  · intro a herr item hmem
    rw [hD] at hmem
    obtain ⟨b, _, hsome⟩ := List.mem_filterMap.mp hmem
    obtain ⟨hF, -, hl, hd⟩ := attrItem_spec live desired b item hsome
    intro hFa
    rw [hF] at hFa
    subst hFa
    rcases herr with ⟨e, he⟩ | ⟨e, he⟩
    · rw [he] at hl; cases hl
    · rw [he] at hd; cases hd
  · rw [CompareStates_some_eq live desired _ hty,
      CompareStates_some_eq live desired _ hty, filterMap_filter_isSome]
  · intro h
    subst h
    rw [hS, hD]
    simp [hasNonMatch]
  · intro hI
    have hall : attrs.filterMap (attrItem live desired) = [] := by
      rw [List.filterMap_eq_nil_iff]
      intro a _
      exact hnil hI a
    rw [hS, hD, hall]
    simp [hasNonMatch]

/-- Witness for C5 at a concrete input. -/
theorem C5_witness : cMatchReport.DriftDetails.length ≤ 1 :=
  (C5_skipped_attributes cLive cDesired ["instance_type"] cMatchReport rfl rfl).1

end driftchecker

namespace statemanager

/-- C10.  `AttributeValue` errors with zero instances; with at least one
instance it returns the empty string for an absent attribute, the value for
a string attribute, and an error for a non-string attribute — so a
non-string desired attribute can never produce a drift item, while an
absent desired attribute participates in comparison as the empty string. -/
theorem C10_AttributeValue_cases (s : StateResource) (a : String) :
    (s.Instances = [] → s.AttributeValue a = .error "No Instance for resource")
    ∧ (∀ inst rest, s.Instances = inst :: rest →
        ((goMapGet inst.Attributes a = none → s.AttributeValue a = .ok "")
        ∧ (∀ v, goMapGet inst.Attributes a = some (Json.str v) →
            s.AttributeValue a = .ok v)
        ∧ (∀ j, goMapGet inst.Attributes a = some j → (∀ v, j ≠ Json.str v) →
            s.AttributeValue a = .error "attribute value cannot be parsed to string")))
    ∧ (∀ live attrs r inst rest j, s.Instances = inst :: rest →
        goMapGet inst.Attributes a = some j → (∀ v, j ≠ Json.str v) →
        driftchecker.CompareStates (some live) s attrs = .ok r →
        ∀ item ∈ r.DriftDetails, item.Field ≠ a) := by
  have hnonstr : ∀ inst rest j, s.Instances = inst :: rest →
      goMapGet inst.Attributes a = some j → (∀ v, j ≠ Json.str v) →
      s.AttributeValue a = .error "attribute value cannot be parsed to string" := by
    intro inst rest j hI hj hne
    cases j with
    | str v => exact absurd rfl (hne v)
    | null => simp [StateResource.AttributeValue, hI, hj]
    | bool b => simp [StateResource.AttributeValue, hI, hj]
    | num n => simp [StateResource.AttributeValue, hI, hj]
    | arr es => simp [StateResource.AttributeValue, hI, hj]
    | obj ms => simp [StateResource.AttributeValue, hI, hj]
  refine ⟨?_, ?_, ?_⟩
  · intro h; simp [StateResource.AttributeValue, h]
  · intro inst rest hI
    refine ⟨?_, ?_, ?_⟩
    · intro h; simp [StateResource.AttributeValue, hI, h]
    · intro v h; simp [StateResource.AttributeValue, hI, h]
    · intro j hj hne; exact hnonstr inst rest j hI hj hne
  · intro live attrs r inst rest j hI hj hne hok item hmem
    have hty : live.ResourceType = s.ResourceType := by
      by_cases h : live.ResourceType = s.ResourceType
      · exact h
      · simp [driftchecker.CompareStates, h] at hok
    rw [driftchecker.CompareStates_some_eq live s attrs hty] at hok
    injection hok with hr
    have hD : r.DriftDetails = attrs.filterMap (driftchecker.attrItem live s) := by
      rw [← hr]
    rw [hD] at hmem
    obtain ⟨b, _, hsome⟩ := List.mem_filterMap.mp hmem
    obtain ⟨hF, -, -, hd⟩ := driftchecker.attrItem_spec live s b item hsome
    intro hFa
    rw [hF] at hFa
    subst hFa
    rw [hnonstr inst rest j hI hj hne] at hd
    cases hd

/-- Witness for C10: a numeric desired attribute is a parse error. -/
theorem C10_witness :
    cDesired.AttributeValue "cpu_core_count" =
      .error "attribute value cannot be parsed to string" :=
  ((C10_AttributeValue_cases cDesired "cpu_core_count").2.1
    { Attributes := some (
        [("id", Json.str "i-1"), ("instance_type", Json.str "t2.micro"),
         ("cpu_core_count", Json.num 2)]) } [] rfl).2.2 (Json.num 2) rfl
    (fun _ h => Json.noConfusion h)

end statemanager

/-! ## Theorems: EC2 adapter, CSV reporter, dispatch pipeline -/

namespace aws

/-- C8.  For every DescribeInstances response, the adapter expects exactly
one reservation: zero reservations fail with the live-not-running error,
more than one fails with the duplicate-result error, and exactly one
reservation with a single instance yields the `EC2InfraInstance` wrapping
that instance without error. -/
theorem C8_handleEC2Metadata (rs : List Reservation) (i : EC2Instance) (r : Reservation) :
    (handleEC2Metadata [] = .error "EC2 resource with filters is not running")
    ∧ (rs.length > 1 →
        handleEC2Metadata rs = .error "EC2 resource with id  returns duplicate result")
    ∧ (r.Instances = [i] → handleEC2Metadata [r] = .ok (some { Instance := i })) := by
  refine ⟨rfl, ?_, ?_⟩
  · intro h
    unfold handleEC2Metadata
    rw [if_neg (by omega), if_pos (by omega)]
  · intro h
    unfold handleEC2Metadata
    simp [h]

/-- Witness for C8: a two-reservation response is ambiguous; a singleton
response yields the wrapped instance. -/
theorem C8_witness :
    handleEC2Metadata [{ Instances := [] }, { Instances := [] }] =
      .error "EC2 resource with id  returns duplicate result"
    ∧ handleEC2Metadata [{ Instances := [{ InstanceId := "i-1" }] }] =
      .ok (some { Instance := { InstanceId := "i-1" } }) :=
  ⟨(C8_handleEC2Metadata [{ Instances := [] }, { Instances := [] }]
      { InstanceId := "" } { Instances := [] }).2.1 (by decide),
   (C8_handleEC2Metadata [] { InstanceId := "i-1" }
      { Instances := [{ InstanceId := "i-1" }] }).2.2 rfl⟩

end aws

namespace reporter

/-- Counterexample to C9: `CompareStates` produces a no-drift report with one
MATCH item, and on it the CSV reporter writes the single summary row, not
one row per drift item — the summary row is governed by `!HasDrift ||
len(items) == 0`, not by the absence of items alone. -/
theorem C9_counterexample :
    driftchecker.CompareStates (some cLive) cDesired ["instance_type"] = .ok cMatchReport
    ∧ WriteReport cMatchReport = [csvHeader, summaryRow cMatchReport]
    ∧ cMatchReport.DriftDetails ≠ []
    ∧ WriteReport cMatchReport
        ≠ csvHeader :: cMatchReport.DriftDetails.map (itemRow cMatchReport) :=
  ⟨rfl, rfl, by decide, by decide⟩

/-- C9 as amended.  The CSV reporter writes the fixed header row first; it
writes one row per DriftItem only when the report has drift and at least one
item, and otherwise (no drift — even with items — or no items) writes the
single summary row with empty drift-item columns. -/
theorem C9_amended_rows (report : driftchecker.DriftReport) :
    (WriteReport report).head? = some csvHeader
    ∧ (report.HasDrift = true → report.DriftDetails ≠ [] →
        WriteReport report = csvHeader :: report.DriftDetails.map (itemRow report))
    ∧ (report.HasDrift = false ∨ report.DriftDetails = [] →
        WriteReport report = [csvHeader, summaryRow report])
    ∧ (WriteReport report).length =
        1 + (if report.HasDrift = false ∨ report.DriftDetails = [] then 1
             else report.DriftDetails.length) := by
  refine ⟨rfl, ?_, ?_, ?_⟩
  · intro hH hD
    simp [WriteReport, hH, List.isEmpty_iff, hD]
  · intro h
    rcases h with h | h
    · simp [WriteReport, h]
    · simp [WriteReport, h]
  · cases hHB : report.HasDrift <;> by_cases hD : report.DriftDetails = [] <;>
      simp [WriteReport, hHB, hD, List.isEmpty_iff] <;> omega

/-- Witness for C9 (amended) at the concrete all-MATCH report. -/
theorem C9_witness :
    WriteReport cMatchReport = [csvHeader, summaryRow cMatchReport] :=
  (C9_amended_rows cMatchReport).2.2.1 (Or.inl rfl)

end reporter

namespace cmd

/-- Counterexample to C7: parsing succeeds, yet `RunDriftDetection` returns
an error because the resource-retrieval step — a second fatal step distinct
from parsing — fails. -/
theorem C7_counterexample :
    RunDriftDetection (.ok cStateContent) (fun _ _ => .error "retrieve failed")
        "aws_instance" ["instance_type"] (fun _ => .error "") (fun _ _ _ => .error "")
        (fun _ => .error "")
      = .error "failed to retrieve resources: retrieve failed" := rfl

/-- C7 as amended.  `RunDriftDetection` succeeds exactly when parsing and
resource retrieval both succeed — independently of the per-resource
provider, comparison and write outcomes, so it succeeds even if every worker
step fails; a failing step skips exactly that resource (it contributes no
written report) while the rest of the batch continues; an empty retrieved
resource list returns success with no reports. -/
theorem C7_amended_success
    (parse : Except String statemanager.StateContent)
    (retrieve : statemanager.StateContent → String →
      Except String (List statemanager.StateResource))
    (resourceType : String) (attrs : List String)
    (im : statemanager.StateResource →
      Except String (Option driftchecker.InfrastructureResourceI))
    (cs : Option driftchecker.InfrastructureResourceI → statemanager.StateResource →
      List String → Except String driftchecker.DriftReport)
    (wr : driftchecker.DriftReport → Except String Unit) :
    ((∃ out, RunDriftDetection parse retrieve resourceType attrs im cs wr = .ok out) ↔
      ∃ c rs, parse = .ok c ∧ retrieve c resourceType = .ok rs)
    ∧ (∀ c rs, parse = .ok c → retrieve c resourceType = .ok rs →
        RunDriftDetection parse retrieve resourceType attrs im cs wr
          = .ok (rs.filterMap (processResource im cs wr attrs)))
    ∧ (∀ c, parse = .ok c → retrieve c resourceType = .ok [] →
        RunDriftDetection parse retrieve resourceType attrs im cs wr = .ok [])
    ∧ (∀ res e, im res = .error e → processResource im cs wr attrs res = none)
    ∧ (∀ res l e, im res = .ok l → cs l res attrs = .error e →
        processResource im cs wr attrs res = none)
    ∧ (∀ res l rep e, im res = .ok l → cs l res attrs = .ok rep → wr rep = .error e →
        processResource im cs wr attrs res = none) := by
  refine ⟨⟨?_, ?_⟩, ?_, ?_, ?_, ?_, ?_⟩
  · intro hout
    obtain ⟨out, hout⟩ := hout
    cases hp : parse with
    | error e => rw [hp] at hout; simp [RunDriftDetection] at hout
    | ok c =>
      cases hr : retrieve c resourceType with
      | error e => rw [hp] at hout; simp [RunDriftDetection, hr] at hout
      | ok rs => exact ⟨c, rs, rfl, hr⟩
  · intro hex
    obtain ⟨c, rs, hp, hr⟩ := hex
    refine ⟨rs.filterMap (processResource im cs wr attrs), ?_⟩
    rw [hp]
    simp [RunDriftDetection, hr]
  · intro c rs hp hr
    rw [hp]
    simp [RunDriftDetection, hr]
  · intro c hp hr
    rw [hp]
    simp [RunDriftDetection, hr]
  · intro res e h
    simp [processResource, h]
  · intro res l e h1 h2
    simp [processResource, h1, h2]
  · intro res l rep e h1 h2 h3
    simp [processResource, h1, h2, h3]

/-- Witness for C7 (amended): every worker step fails on the one resource,
yet the run succeeds with no written reports. -/
theorem C7_witness :
    RunDriftDetection (.ok cStateContent) (fun _ _ => .ok [cDesired]) "aws_instance"
        ["instance_type"] (fun _ => .error "provider down") (fun _ _ _ => .error "")
        (fun _ => .error "")
      = .ok [] := by
  have h := (C7_amended_success (.ok cStateContent) (fun _ _ => .ok [cDesired])
    "aws_instance" ["instance_type"] (fun _ => .error "provider down")
    (fun _ _ _ => .error "") (fun _ => .error "")).2.1 cStateContent [cDesired] rfl rfl
  rw [h]
  rfl

end cmd

/-! ## Theorems: the terraform state parser and rawState -/

namespace terraform

/-- Counterexample to C6: the valid state-file input with bytes rendering the
empty JSON object parses successfully, but the `rawState` the conversion
produces is the re-marshalling of the decoded struct — canonical field
order, zero values materialized, unknown fields dropped — which is not
byte-equal to the input. -/
theorem C6_counterexample :
    ParseBytes (Json.obj []) = .ok ({} : TerraformState)
    ∧ Except.map (fun sc => sc.RawState)
        (ConvertTerraformStateToStateContent ({} : TerraformState))
      = .ok (marshalTerraformState ({} : TerraformState))
    ∧ marshalTerraformState ({} : TerraformState) ≠ Json.render (Json.obj []) :=
  ⟨rfl, rfl, by decide⟩

end terraform

/-! ### Sorted insertion, map decoding, and canonicalization lemmas -/

theorem mem_sortInsertR {α : Type} {l : List (String × α)} {k : String} {v : α}
    {p : String × α} (h : p ∈ sortInsertR l k v) : p ∈ l ∨ p = (k, v) := by
  induction l with
  | nil =>
    simp [sortInsertR] at h
    exact Or.inr h
  | cons kv rest ih =>
    rw [sortInsertR] at h
    split at h
    · rcases List.mem_cons.mp h with rfl | h'
      · exact Or.inr rfl
      · exact Or.inl h'
    · split at h
      · rcases List.mem_cons.mp h with rfl | h'
        · exact Or.inr rfl
        · exact Or.inl (List.mem_cons_of_mem kv h')
      · rcases List.mem_cons.mp h with rfl | h'
        · exact Or.inl (List.mem_cons_self _ _)
        · rcases ih h' with h'' | h''
          · exact Or.inl (List.mem_cons_of_mem kv h'')
          · exact Or.inr h''

theorem sortInsertR_pairwise {α : Type} {l : List (String × α)} (k : String) (v : α)
    (h : sortedKeys l) : sortedKeys (sortInsertR l k v) := by
  induction l with
  | nil =>
    simp [sortInsertR, sortedKeys]
  | cons kv rest ih =>
    rw [sortedKeys, List.pairwise_cons] at h
    obtain ⟨hall, hrest⟩ := h
    by_cases h1 : k < kv.1
    · rw [sortInsertR, if_pos h1, sortedKeys, List.pairwise_cons]
      constructor
      · intro b hb
        rcases List.mem_cons.mp hb with rfl | hb
        · exact h1
        · exact lt_trans h1 (hall b hb)
      · exact List.pairwise_cons.mpr ⟨hall, hrest⟩
    · by_cases h2 : k = kv.1
      · rw [sortInsertR, if_neg h1, if_pos h2, sortedKeys, List.pairwise_cons]
        exact ⟨fun b hb => h2 ▸ hall b hb, hrest⟩
      · have h3 : kv.1 < k := by
          rcases lt_trichotomy k kv.1 with h | h | h
          · exact absurd h h1
          · exact absurd h h2
          · exact h
        rw [sortInsertR, if_neg h1, if_neg h2, sortedKeys, List.pairwise_cons]
        constructor
        · intro b hb
          rcases mem_sortInsertR hb with hb' | rfl
          · exact hall b hb'
          · exact h3
        · exact ih hrest

theorem sortInsertR_append {α : Type} {l : List (String × α)} {k : String} {v : α}
    (h : ∀ p ∈ l, p.1 < k) : sortInsertR l k v = l ++ [(k, v)] := by
  induction l with
  | nil => rfl
  | cons kv rest ih =>
    have hk : kv.1 < k := h kv (List.mem_cons_self _ _)
    rw [sortInsertR, if_neg (lt_asymm hk), if_neg hk.ne',
      ih fun p hp => h p (List.mem_cons_of_mem kv hp)]
    rfl

theorem decodeMapGo_ok {α : Type} (f : Json → Except String α) (P : α → Prop)
    (hf : ∀ j v, f j = .ok v → P v) :
    ∀ (ms : List (String × Json)) (acc out : List (String × α)),
      sortedKeys acc → (∀ p ∈ acc, P p.2) →
      decodeMapGo f ms acc = .ok out →
      sortedKeys out ∧ ∀ p ∈ out, P p.2
  | [], acc, out, hs, hp, h => by
    rw [decodeMapGo] at h
    cases h
    exact ⟨hs, hp⟩
  | (k, j) :: rest, acc, out, hs, hp, h => by
    rw [decodeMapGo] at h
    cases hj : f j with
    | error e => rw [hj] at h; cases h
    | ok v =>
      rw [hj] at h
      refine decodeMapGo_ok f P hf rest _ out (sortInsertR_pairwise k v hs) ?_ h
      intro p hpmem
      rcases mem_sortInsertR hpmem with hm | rfl
      · exact hp p hm
      · exact hf j v hj

theorem decodeMapGo_emit {α : Type} (f : Json → Except String α) (g : α → Json) :
    ∀ (l acc : List (String × α)),
      sortedKeys (acc ++ l) → (∀ p ∈ l, f (g p.2) = .ok p.2) →
      decodeMapGo f (l.map fun p => (p.1, g p.2)) acc = .ok (acc ++ l)
  | [], acc, _, _ => by simp [decodeMapGo]
  | (k, v) :: rest, acc, hs, hl => by
    have hfk : f (g v) = .ok v := hl (k, v) (List.mem_cons_self _ _)
    rw [List.map_cons, decodeMapGo, hfk]
    show decodeMapGo f (rest.map fun p => (p.1, g p.2)) (sortInsertR acc k v)
      = .ok (acc ++ (k, v) :: rest)
    have hlt : ∀ p ∈ acc, p.1 < k := by
      rw [sortedKeys, List.pairwise_append] at hs
      exact fun p hp => hs.2.2 p hp (k, v) (List.mem_cons_self _ _)
    rw [sortInsertR_append hlt]
    have hs' : sortedKeys ((acc ++ [(k, v)]) ++ rest) := by simpa using hs
    rw [decodeMapGo_emit f g rest (acc ++ [(k, v)]) hs'
      fun p hp => hl p (List.mem_cons_of_mem _ hp)]
    simp

theorem mapE_emit {α β : Type} (f : β → Except String α) (g : α → β) :
    ∀ l : List α, (∀ a ∈ l, f (g a) = .ok a) → mapE f (l.map g) = .ok l
  | [], _ => rfl
  | a :: rest, h => by
    rw [List.map_cons, mapE, h a (List.mem_cons_self _ _),
      mapE_emit f g rest fun b hb => h b (List.mem_cons_of_mem _ hb)]

theorem mapE_ok_mem {α β : Type} (f : α → Except String β) :
    ∀ (l : List α) (out : List β), mapE f l = .ok out → ∀ b ∈ out, ∃ a ∈ l, f a = .ok b
  | [], out, h => by
    rw [mapE] at h
    cases h
    simp
  | a :: rest, out, h => by
    rw [mapE] at h
    cases hfa : f a with
    | error e => rw [hfa] at h; cases h
    | ok b0 =>
      rw [hfa] at h
      cases hrest : mapE f rest with
      | error e => rw [hrest] at h; cases h
      | ok bs =>
        rw [hrest] at h
        cases h
        intro b hb
        rcases List.mem_cons.mp hb with rfl | hb
        · exact ⟨a, List.mem_cons_self _ _, hfa⟩
        · obtain ⟨a', ha', hfa'⟩ := mapE_ok_mem f rest bs hrest b hb
          exact ⟨a', List.mem_cons_of_mem _ ha', hfa'⟩

namespace Json

theorem memberGet_append (l1 l2 : List (String × Json)) (k : String) :
    memberGet (l1 ++ l2) k =
      match memberGet l2 k with
      | some v => some v
      | none => memberGet l1 k := by
  induction l1 with
  | nil => cases h : memberGet l2 k <;> simp [memberGet, h]
  | cons kv rest ih =>
    rw [List.cons_append, memberGet, ih]
    cases h : memberGet l2 k <;> cases h2 : memberGet rest k <;> simp [memberGet, h, h2]

theorem isCanonObj_iff : ∀ ms : List (String × Json),
    IsCanonObj ms ↔ ∀ p ∈ ms, IsCanon p.2
  | [] => by simp [IsCanonObj]
  | kv :: ms => by
    rw [IsCanonObj, isCanonObj_iff ms, List.forall_mem_cons]

theorem isCanonArr_iff : ∀ es : List Json, IsCanonArr es ↔ ∀ e ∈ es, IsCanon e
  | [] => by simp [IsCanonArr]
  | e :: es => by
    rw [IsCanonArr, isCanonArr_iff es, List.forall_mem_cons]

mutual

theorem canon_isCanon : ∀ j : Json, (canon j).IsCanon
  | .null => trivial
  | .bool _ => trivial
  | .num _ => trivial
  | .str _ => trivial
  | .arr es => canonArr_isCanonArr es
  | .obj ms => by
    rw [canon]
    have h := canonObjGo_good ms [] (by simp [sortedKeys]) (by simp)
    exact ⟨h.1, (isCanonObj_iff _).mpr h.2⟩

theorem canonArr_isCanonArr : ∀ es : List Json, IsCanonArr (canonArr es)
  | [] => trivial
  | e :: es => ⟨canon_isCanon e, canonArr_isCanonArr es⟩

theorem canonObjGo_good : ∀ (ms acc : List (String × Json)),
    sortedKeys acc → (∀ p ∈ acc, IsCanon p.2) →
    sortedKeys (canonObjGo acc ms) ∧ ∀ p ∈ canonObjGo acc ms, IsCanon p.2
  | [], acc, hs, hp => ⟨hs, hp⟩
  | (k, v) :: ms, acc, hs, hp => by
    rw [canonObjGo]
    refine canonObjGo_good ms _ (sortInsertR_pairwise k _ hs) ?_
    intro p hmem
    rcases mem_sortInsertR hmem with hm | rfl
    · exact hp p hm
    · exact canon_isCanon v

end

mutual

theorem canon_eq_of_isCanon : ∀ j : Json, j.IsCanon → j.canon = j
  | .null, _ => rfl
  | .bool _, _ => rfl
  | .num _, _ => rfl
  | .str _, _ => rfl
  | .arr es, h => by rw [canon, canonArr_eq_of es h]
  | .obj ms, h => by
    rw [canon]
    have h' : sortedKeys ms ∧ IsCanonObj ms := h
    rw [canonObjGo_eq_of ms [] (by simpa using h'.1) h'.2]
    rfl

theorem canonArr_eq_of : ∀ es : List Json, IsCanonArr es → canonArr es = es
  | [], _ => rfl
  | e :: es, h => by rw [canonArr, canon_eq_of_isCanon e h.1, canonArr_eq_of es h.2]

theorem canonObjGo_eq_of : ∀ (ms acc : List (String × Json)),
    sortedKeys (acc ++ ms) → IsCanonObj ms → canonObjGo acc ms = acc ++ ms
  | [], acc, _, _ => by simp [canonObjGo]
  | (k, v) :: ms, acc, hs, hc => by
    rw [canonObjGo, canon_eq_of_isCanon v hc.1]
    have hlt : ∀ p ∈ acc, p.1 < k := by
      rw [sortedKeys, List.pairwise_append] at hs
      exact fun p hp => hs.2.2 p hp (k, v) (List.mem_cons_self _ _)
    rw [sortInsertR_append hlt]
    have hs' : sortedKeys ((acc ++ [(k, v)]) ++ ms) := by simpa using hs
    rw [canonObjGo_eq_of ms (acc ++ [(k, v)]) hs' hc.2]
    simp

end

/-- Every any-field decode result is canonical. -/
theorem getAny_isCanon (ms : List (String × Json)) (k : String) :
    (getAny ms k).IsCanon := by
  rw [getAny]
  cases memberGet ms k with
  | none => trivial
  | some v => exact canon_isCanon v

theorem getOptMapWith_prop {α : Type} (f : Json → Except String α) (P : α → Prop)
    (hf : ∀ j v, f j = .ok v → P v) (ms : List (String × Json)) (k : String)
    (m : GoMap α) (h : getOptMapWith f ms k = .ok m) :
    terraform.GoMapCanonP P m := by
  rw [getOptMapWith] at h
  cases hm : memberGet ms k with
  | none =>
    rw [hm] at h
    cases h
    trivial
  | some v =>
    rw [hm] at h
    cases v with
    | null => cases h; trivial
    | obj mems =>
      dsimp only [] at h
      cases hd : decodeMap f mems with
      | error e => rw [hd] at h; cases h
      | ok l =>
        rw [hd] at h
        cases h
        exact decodeMapGo_ok f P hf mems [] l (by simp [sortedKeys]) (by simp) hd
    | bool b => cases h
    | num n => cases h
    | str s => cases h
    | arr es => cases h

theorem getMapWithD_prop {α : Type} (f : Json → Except String α) (P : α → Prop)
    (hf : ∀ j v, f j = .ok v → P v) (ms : List (String × Json)) (k : String)
    (l : List (String × α)) (h : getMapWithD f ms k = .ok l) :
    sortedKeys l ∧ ∀ p ∈ l, P p.2 := by
  rw [getMapWithD] at h
  cases hm : memberGet ms k with
  | none =>
    rw [hm] at h
    cases h
    exact ⟨by simp [sortedKeys], by simp⟩
  | some v =>
    rw [hm] at h
    cases v with
    | null => cases h; exact ⟨by simp [sortedKeys], by simp⟩
    | obj mems =>
      dsimp only [] at h
      exact decodeMapGo_ok f P hf mems [] l (by simp [sortedKeys]) (by simp) h
    | bool b => cases h
    | num n => cases h
    | str s => cases h
    | arr es => cases h

theorem getOptArrWith_prop {α : Type} (f : Json → Except String α) (P : α → Prop)
    (hf : ∀ j v, f j = .ok v → P v) (ms : List (String × Json)) (k : String)
    (o : Option (List α)) (h : getOptArrWith f ms k = .ok o) :
    ∀ x ∈ o.getD [], P x := by
  rw [getOptArrWith] at h
  cases hm : memberGet ms k with
  | none =>
    rw [hm] at h
    cases h
    simp
  | some v =>
    rw [hm] at h
    cases v with
    | null => cases h; simp
    | arr es =>
      dsimp only [] at h
      cases hme : mapE f es with
      | error e => rw [hme] at h; cases h
      | ok xs =>
        rw [hme] at h
        cases h
        intro x hx
        obtain ⟨a, _, hfa⟩ := mapE_ok_mem f es xs hme x (by simpa using hx)
        exact hf a x hfa
    | bool b => cases h
    | num n => cases h
    | str s => cases h
    | obj mems => cases h

theorem getArrWithD_prop {α : Type} (f : Json → Except String α) (P : α → Prop)
    (hf : ∀ j v, f j = .ok v → P v) (ms : List (String × Json)) (k : String)
    (l : List α) (h : getArrWithD f ms k = .ok l) : ∀ x ∈ l, P x := by
  rw [getArrWithD] at h
  cases hm : memberGet ms k with
  | none =>
    rw [hm] at h
    cases h
    simp
  | some v =>
    rw [hm] at h
    cases v with
    | null => cases h; simp
    | arr es =>
      dsimp only [] at h
      intro x hx
      obtain ⟨a, _, hfa⟩ := mapE_ok_mem f es l h x hx
      exact hf a x hfa
    | bool b => cases h
    | num n => cases h
    | str s => cases h
    | obj mems => cases h

theorem getOptStructWith_prop {α : Type} (f : Json → Except String α) (P : α → Prop)
    (hf : ∀ j v, f j = .ok v → P v) (ms : List (String × Json)) (k : String)
    (o : Option α) (h : getOptStructWith f ms k = .ok o) :
    ∀ v, o = some v → P v := by
  rw [getOptStructWith] at h
  cases hm : memberGet ms k with
  | none =>
    rw [hm] at h
    cases h
    intro v hv
    cases hv
  | some j =>
    rw [hm] at h
    cases j with
    | null =>
      cases h
      intro v hv
      cases hv
    | bool b =>
      dsimp only [] at h
      cases hd : f (Json.bool b) with
      | error e => rw [hd] at h; cases h
      | ok v =>
        rw [hd] at h
        cases h
        intro w hw
        cases hw
        exact hf _ _ hd
    | num n =>
      dsimp only [] at h
      cases hd : f (Json.num n) with
      | error e => rw [hd] at h; cases h
      | ok v =>
        rw [hd] at h
        cases h
        intro w hw
        cases hw
        exact hf _ _ hd
    | str s =>
      dsimp only [] at h
      cases hd : f (Json.str s) with
      | error e => rw [hd] at h; cases h
      | ok v =>
        rw [hd] at h
        cases h
        intro w hw
        cases hw
        exact hf _ _ hd
    | arr es =>
      dsimp only [] at h
      cases hd : f (Json.arr es) with
      | error e => rw [hd] at h; cases h
      | ok v =>
        rw [hd] at h
        cases h
        intro w hw
        cases hw
        exact hf _ _ hd
    | obj mems =>
      dsimp only [] at h
      cases hd : f (Json.obj mems) with
      | error e => rw [hd] at h; cases h
      | ok v =>
        rw [hd] at h
        cases h
        intro w hw
        cases hw
        exact hf _ _ hd

end Json

namespace terraform

/-- Decoded outputs are canonical. -/
theorem decodeOutput_canon : ∀ (j : Json) (o : Output),
    decodeOutput j = .ok o → o.Canon
  | .null, o, h => by
    cases h
    exact ⟨trivial, trivial⟩
  | .obj ms, o, h => by
    rw [decodeOutput] at h
    cases hb : Json.getBool ms "sensitive" with
    | error e => rw [hb] at h; cases h
    | ok sens =>
      rw [hb] at h
      dsimp only [] at h
      cases h
      exact ⟨Json.getAny_isCanon ms "value", Json.getAny_isCanon ms "type"⟩
  | .bool b, o, h => by cases h
  | .num n, o, h => by cases h
  | .str s, o, h => by cases h
  | .arr es, o, h => by cases h

/-- Decoded instances are canonical. -/
theorem decodeInstance_canon : ∀ (j : Json) (i : Instance),
    decodeInstance j = .ok i → i.Canon
  | .null, i, h => by
    cases h
    exact ⟨trivial, by simp [sortedKeys], trivial⟩
  | .obj ms, i, h => by
    rw [decodeInstance] at h
    cases h1 : Json.getInt ms "schema_version" with
    | error e => rw [h1] at h; cases h
    | ok sv =>
      rw [h1] at h
      dsimp only [] at h
      cases h2 : Json.getOptMapWith (fun j => .ok j.canon) ms "attributes" with
      | error e => rw [h2] at h; cases h
      | ok attrs =>
        rw [h2] at h
        dsimp only [] at h
        cases h3 : Json.getMapWithD Json.decodeStrE ms "attributes_flat" with
        | error e => rw [h3] at h; cases h
        | ok aflat =>
          rw [h3] at h
          dsimp only [] at h
          cases h4 : Json.getStr ms "private" with
          | error e => rw [h4] at h; cases h
          | ok pv =>
            rw [h4] at h
            dsimp only [] at h
            cases h5 : Json.getArrWithD Json.decodeStrE ms "dependencies" with
            | error e => rw [h5] at h; cases h
            | ok deps =>
              rw [h5] at h
              dsimp only [] at h
              cases h6 : Json.getStr ms "status" with
              | error e => rw [h6] at h; cases h
              | ok st =>
                rw [h6] at h
                dsimp only [] at h
                cases h7 : Json.getStr ms "deposed" with
                | error e => rw [h7] at h; cases h
                | ok dep =>
                  rw [h7] at h
                  dsimp only [] at h
                  cases h8 : Json.getBool ms "create_before_destroy" with
                  | error e => rw [h8] at h; cases h
                  | ok cbd =>
                    rw [h8] at h
                    dsimp only [] at h
                    cases h
                    refine ⟨?_, ?_, Json.getAny_isCanon ms "index_key"⟩
                    · exact Json.getOptMapWith_prop _ Json.IsCanon
                        (fun j v hv => by cases hv; exact Json.canon_isCanon j)
                        ms "attributes" attrs h2
                    · exact (Json.getMapWithD_prop Json.decodeStrE (fun _ => True)
                        (fun _ _ _ => trivial) ms "attributes_flat" aflat h3).1
  | .bool b, i, h => by cases h
  | .num n, i, h => by cases h
  | .str s, i, h => by cases h
  | .arr es, i, h => by cases h

/-- Decoded resources are canonical. -/
theorem decodeResource_canon : ∀ (j : Json) (r : Resource),
    decodeResource j = .ok r → r.Canon
  | .null, r, h => by
    cases h
    intro i hi
    simp at hi
  | .obj ms, r, h => by
    rw [decodeResource] at h
    cases h1 : Json.getStr ms "mode" with
    | error e => rw [h1] at h; cases h
    | ok mode =>
      rw [h1] at h
      dsimp only [] at h
      cases h2 : Json.getStr ms "type" with
      | error e => rw [h2] at h; cases h
      | ok ty =>
        rw [h2] at h
        dsimp only [] at h
        cases h3 : Json.getStr ms "name" with
        | error e => rw [h3] at h; cases h
        | ok name =>
          rw [h3] at h
          dsimp only [] at h
          cases h4 : Json.getStr ms "provider" with
          | error e => rw [h4] at h; cases h
          | ok prov =>
            rw [h4] at h
            dsimp only [] at h
            cases h5 : Json.getOptArrWith decodeInstance ms "instances" with
            | error e => rw [h5] at h; cases h
            | ok insts =>
              rw [h5] at h
              dsimp only [] at h
              cases h6 : Json.getStr ms "each" with
              | error e => rw [h6] at h; cases h
              | ok each =>
                rw [h6] at h
                dsimp only [] at h
                cases h7 : Json.getStr ms "module" with
                | error e => rw [h7] at h; cases h
                | ok md =>
                  rw [h7] at h
                  dsimp only [] at h
                  cases h
                  exact Json.getOptArrWith_prop decodeInstance Instance.Canon
                    (fun j v hv => decodeInstance_canon j v hv) ms "instances" insts h5
  | .bool b, r, h => by cases h
  | .num n, r, h => by cases h
  | .str s, r, h => by cases h
  | .arr es, r, h => by cases h

/-- Pointer-element decoding preserves a pointwise property. -/
theorem decodePtrWith_prop {α : Type} (f : Json → Except String α) (P : α → Prop)
    (hf : ∀ j v, f j = .ok v → P v) :
    ∀ (j : Json) (o : Option α), Json.decodePtrWith f j = .ok o →
      ∀ v, o = some v → P v := by
  have hstep : ∀ (j : Json) (o : Option α),
      (match f j with
       | .error e => Except.error e
       | .ok v => Except.ok (some v)) = .ok o → ∀ v, o = some v → P v := by
    intro j o h v hv
    cases hd : f j with
    | error e => rw [hd] at h; cases h
    | ok w =>
      rw [hd] at h
      cases h
      cases hv
      exact hf j v hd
  intro j o h
  cases j with
  | null =>
    cases h
    intro v hv
    cases hv
  | bool b => exact hstep _ o h
  | num n => exact hstep _ o h
  | str s => exact hstep _ o h
  | arr es => exact hstep _ o h
  | obj ms => exact hstep _ o h

/-- Decoded legacy resources are canonical. -/
theorem decodeLegacyResource_canon : ∀ (j : Json) (lr : LegacyResource),
    decodeLegacyResource j = .ok lr → lr.Canon
  | .null, lr, h => by
    cases h
    constructor
    · intro i hi; cases hi
    · intro oi hoi; simp at hoi
  | .obj ms, lr, h => by
    rw [decodeLegacyResource] at h
    cases h1 : Json.getStr ms "type" with
    | error e => rw [h1] at h; cases h
    | ok ty =>
      rw [h1] at h
      dsimp only [] at h
      cases h2 : Json.getOptStructWith decodeInstance ms "primary" with
      | error e => rw [h2] at h; cases h
      | ok prim =>
        rw [h2] at h
        dsimp only [] at h
        cases h3 : Json.getOptArrWith (Json.decodePtrWith decodeInstance) ms "deposed" with
        | error e => rw [h3] at h; cases h
        | ok depo =>
          rw [h3] at h
          dsimp only [] at h
          cases h4 : Json.getStr ms "provider" with
          | error e => rw [h4] at h; cases h
          | ok prov =>
            rw [h4] at h
            dsimp only [] at h
            cases h5 : Json.getOptArrWith Json.decodeStrE ms "depends_on" with
            | error e => rw [h5] at h; cases h
            | ok deps =>
              rw [h5] at h
              dsimp only [] at h
              cases h
              constructor
              · exact Json.getOptStructWith_prop decodeInstance Instance.Canon
                  (fun j v hv => decodeInstance_canon j v hv) ms "primary" prim h2
              · intro oi hoi
                exact Json.getOptArrWith_prop (Json.decodePtrWith decodeInstance)
                  (fun oi => ∀ i, oi = some i → i.Canon)
                  (fun j v hv => decodePtrWith_prop decodeInstance Instance.Canon
                    (fun j' v' hv' => decodeInstance_canon j' v' hv') j v hv)
                  ms "deposed" depo h3 oi hoi
  | .bool b, lr, h => by cases h
  | .num n, lr, h => by cases h
  | .str s, lr, h => by cases h
  | .arr es, lr, h => by cases h

/-- Decoded modules are canonical. -/
theorem decodeModule_canon : ∀ (j : Json) (m : Module),
    decodeModule j = .ok m → m.Canon
  | .null, m, h => by
    cases h
    exact ⟨trivial, trivial⟩
  | .obj ms, m, h => by
    rw [decodeModule] at h
    cases h1 : Json.getOptArrWith Json.decodeStrE ms "path" with
    | error e => rw [h1] at h; cases h
    | ok path =>
      rw [h1] at h
      dsimp only [] at h
      cases h2 : Json.getOptMapWith decodeOutput ms "outputs" with
      | error e => rw [h2] at h; cases h
      | ok outs =>
        rw [h2] at h
        dsimp only [] at h
        cases h3 : Json.getOptMapWith decodeLegacyResource ms "resources" with
        | error e => rw [h3] at h; cases h
        | ok ress =>
          rw [h3] at h
          dsimp only [] at h
          cases h4 : Json.getOptArrWith Json.decodeStrE ms "dependencies" with
          | error e => rw [h4] at h; cases h
          | ok deps =>
            rw [h4] at h
            dsimp only [] at h
            cases h
            constructor
            · exact Json.getOptMapWith_prop decodeOutput Output.Canon
                (fun j v hv => decodeOutput_canon j v hv) ms "outputs" outs h2
            · exact Json.getOptMapWith_prop decodeLegacyResource LegacyResource.Canon
                (fun j v hv => decodeLegacyResource_canon j v hv) ms "resources" ress h3
  | .bool b, m, h => by cases h
  | .num n, m, h => by cases h
  | .str s, m, h => by cases h
  | .arr es, m, h => by cases h

/-- Every successful decode yields a canonical state: the shape on which
marshalling is injectively invertible. -/
theorem decodeTerraformState_canon : ∀ (j : Json) (ts : TerraformState),
    decodeTerraformState j = .ok ts → ts.Canon
  | .null, ts, h => by
    cases h
    refine ⟨trivial, ?_, trivial, ?_⟩
    · intro r hr; simp at hr
    · intro m hm; simp at hm
  | .obj ms, ts, h => by
    rw [decodeTerraformState] at h
    cases h1 : Json.getInt ms "version" with
    | error e => rw [h1] at h; cases h
    | ok ver =>
      rw [h1] at h
      dsimp only [] at h
      cases h2 : Json.getStr ms "terraform_version" with
      | error e => rw [h2] at h; cases h
      | ok tv =>
        rw [h2] at h
        dsimp only [] at h
        cases h3 : Json.getInt ms "serial" with
        | error e => rw [h3] at h; cases h
        | ok serial =>
          rw [h3] at h
          dsimp only [] at h
          cases h4 : Json.getStr ms "lineage" with
          | error e => rw [h4] at h; cases h
          | ok lin =>
            rw [h4] at h
            dsimp only [] at h
            cases h5 : Json.getOptMapWith decodeOutput ms "outputs" with
            | error e => rw [h5] at h; cases h
            | ok outs =>
              rw [h5] at h
              dsimp only [] at h
              cases h6 : Json.getOptArrWith decodeResource ms "resources" with
              | error e => rw [h6] at h; cases h
              | ok ress =>
                rw [h6] at h
                dsimp only [] at h
                cases h7 : Json.getArrWithD decodeModule ms "modules" with
                | error e => rw [h7] at h; cases h
                | ok mods =>
                  rw [h7] at h
                  dsimp only [] at h
                  cases h
                  refine ⟨?_, ?_, Json.getAny_isCanon ms "check_results", ?_⟩
                  · exact Json.getOptMapWith_prop decodeOutput Output.Canon
                      (fun j v hv => decodeOutput_canon j v hv) ms "outputs" outs h5
                  · exact Json.getOptArrWith_prop decodeResource Resource.Canon
                      (fun j v hv => decodeResource_canon j v hv) ms "resources" ress h6
                  · exact Json.getArrWithD_prop decodeModule Module.Canon
                      (fun j v hv => decodeModule_canon j v hv) ms "modules" mods h7
  | .bool b, ts, h => by cases h
  | .num n, ts, h => by cases h
  | .str s, ts, h => by cases h
  | .arr es, ts, h => by cases h

/-- Decoding a marshalled nil-able map field recovers it. -/
theorem getOptMapWith_emit {α : Type} (f : Json → Except String α) (g : α → Json)
    (m : GoMap α) (ms : List (String × Json)) (k : String)
    (hmg : Json.memberGet ms k = some (goMapJson g m))
    (hsort : ∀ l, m = some l → sortedKeys l)
    (hfg : ∀ l, m = some l → ∀ p ∈ l, f (g p.2) = .ok p.2) :
    Json.getOptMapWith f ms k = .ok m := by
  rw [Json.getOptMapWith, hmg]
  cases m with
  | none => rfl
  | some l =>
    dsimp only [goMapJson]
    have hdm : decodeMap f (l.map fun p => (p.1, g p.2)) = .ok l := by
      have h := decodeMapGo_emit f g l [] (by simpa using hsort l rfl) (hfg l rfl)
      simpa [decodeMap] using h
    rw [hdm]

/-- Decoding a marshalled omitempty map field recovers it. -/
theorem getMapWithD_emit {α : Type} (f : Json → Except String α) (g : α → Json)
    (l : List (String × α)) (ms : List (String × Json)) (k : String)
    (hmg : Json.memberGet ms k =
      (if l.isEmpty then none
       else some (Json.obj (l.map fun p => (p.1, g p.2)))))
    (hsort : sortedKeys l)
    (hfg : ∀ p ∈ l, f (g p.2) = .ok p.2) :
    Json.getMapWithD f ms k = .ok l := by
  rw [Json.getMapWithD, hmg]
  cases hl : l with
  | nil => rfl
  | cons p rest =>
    rw [← hl]
    rw [if_neg (by rw [hl]; simp)]
    dsimp only []
    have hdm : decodeMap f (l.map fun p => (p.1, g p.2)) = .ok l := by
      have h := decodeMapGo_emit f g l [] (by simpa using hsort) hfg
      simpa [decodeMap] using h
    rw [hdm]

/-- Decoding a marshalled nil-able slice field recovers it. -/
theorem getOptArrWith_emit {α : Type} (f : Json → Except String α) (g : α → Json)
    (o : Option (List α)) (ms : List (String × Json)) (k : String)
    (hmg : Json.memberGet ms k = some (optListJson g o))
    (hfg : ∀ l, o = some l → ∀ x ∈ l, f (g x) = .ok x) :
    Json.getOptArrWith f ms k = .ok o := by
  rw [Json.getOptArrWith, hmg]
  cases o with
  | none => rfl
  | some l =>
    dsimp only [optListJson]
    rw [mapE_emit f g l (hfg l rfl)]

/-- Decoding a marshalled omitempty slice field recovers it. -/
theorem getArrWithD_emit {α : Type} (f : Json → Except String α) (g : α → Json)
    (l : List α) (ms : List (String × Json)) (k : String)
    (hmg : Json.memberGet ms k =
      (if l.isEmpty then none else some (Json.arr (l.map g))))
    (hfg : ∀ x ∈ l, f (g x) = .ok x) :
    Json.getArrWithD f ms k = .ok l := by
  rw [Json.getArrWithD, hmg]
  cases hl : l with
  | nil => rfl
  | cons x rest =>
    rw [← hl]
    rw [if_neg (by rw [hl]; simp)]
    dsimp only []
    rw [mapE_emit f g l hfg]

/-- Decoding a marshalled pointer-to-struct field recovers it, provided the
marshalled form is an object (never null). -/
theorem getOptStructWith_emit {α : Type} (f : Json → Except String α) (g : α → Json)
    (o : Option α) (ms : List (String × Json)) (k : String)
    (hmg : Json.memberGet ms k = some (optStructJson g o))
    (hshape : ∀ x, o = some x → ∃ mems, g x = Json.obj mems)
    (hfg : ∀ x, o = some x → f (g x) = .ok x) :
    Json.getOptStructWith f ms k = .ok o := by
  rw [Json.getOptStructWith, hmg]
  cases o with
  | none => rfl
  | some x =>
    obtain ⟨mems, hgx⟩ := hshape x rfl
    dsimp only [optStructJson]
    rw [hgx]
    dsimp only []
    rw [← hgx, hfg x rfl]

/-- Decoding a marshalled omitempty any-field recovers a canonical value. -/
theorem getAny_emit (j : Json) (ms : List (String × Json)) (k : String)
    (hmg : Json.memberGet ms k = (if j.isNull then none else some j))
    (hc : j.IsCanon) : Json.getAny ms k = j := by
  rw [Json.getAny, hmg]
  cases j with
  | null => rfl
  | bool b => exact Json.canon_eq_of_isCanon _ hc
  | num n => exact Json.canon_eq_of_isCanon _ hc
  | str s => exact Json.canon_eq_of_isCanon _ hc
  | arr es => exact Json.canon_eq_of_isCanon _ hc
  | obj mems => exact Json.canon_eq_of_isCanon _ hc

/-- Re-decoding a marshalled canonical output recovers it. -/
theorem decodeOutput_toJson (o : Output) (hc : o.Canon) :
    decodeOutput o.toJson = .ok o := by
  obtain ⟨V, T, S⟩ := o
  obtain ⟨hV, hT⟩ := hc
  cases S
  · show Except.ok (Output.mk (Json.canon V) (Json.canon T) false)
      = Except.ok (Output.mk V T false)
    rw [Json.canon_eq_of_isCanon V hV, Json.canon_eq_of_isCanon T hT]
  · show Except.ok (Output.mk (Json.canon V) (Json.canon T) true)
      = Except.ok (Output.mk V T true)
    rw [Json.canon_eq_of_isCanon V hV, Json.canon_eq_of_isCanon T hT]

theorem Instance_emit_schemaVersion (i : Instance) :
    Json.getInt (Instance.toJsonMembers i) "schema_version" = .ok i.SchemaVersion := by
  cases c1 : i.AttributesFlat.isEmpty <;> by_cases c2 : i.Private = "" <;>
    cases c3 : i.Dependencies.isEmpty <;> cases c4 : i.IndexKey.isNull <;>
    by_cases c5 : i.Status = "" <;> by_cases c6 : i.Deposed = "" <;>
    cases c7 : i.CreateBeforeDestroy <;>
    simp only [Instance.toJsonMembers, c1, c2, c3, c4, c5, c6, c7, if_true, if_false,
      Bool.false_eq_true, ite_true, ite_false] <;> rfl

theorem Instance_emit_attributes (i : Instance) :
    Json.memberGet (Instance.toJsonMembers i) "attributes"
      = some (goMapJson id i.Attributes) := by
  cases c1 : i.AttributesFlat.isEmpty <;> by_cases c2 : i.Private = "" <;>
    cases c3 : i.Dependencies.isEmpty <;> cases c4 : i.IndexKey.isNull <;>
    by_cases c5 : i.Status = "" <;> by_cases c6 : i.Deposed = "" <;>
    cases c7 : i.CreateBeforeDestroy <;>
    simp only [Instance.toJsonMembers, c1, c2, c3, c4, c5, c6, c7, if_true, if_false,
      Bool.false_eq_true, ite_true, ite_false] <;> rfl

theorem Instance_emit_attributesFlat (i : Instance) :
    Json.memberGet (Instance.toJsonMembers i) "attributes_flat"
      = (if i.AttributesFlat.isEmpty then none
         else some (Json.obj (i.AttributesFlat.map fun p => (p.1, Json.str p.2)))) := by
  cases c1 : i.AttributesFlat.isEmpty <;> by_cases c2 : i.Private = "" <;>
    cases c3 : i.Dependencies.isEmpty <;> cases c4 : i.IndexKey.isNull <;>
    by_cases c5 : i.Status = "" <;> by_cases c6 : i.Deposed = "" <;>
    cases c7 : i.CreateBeforeDestroy <;>
    simp only [Instance.toJsonMembers, c1, c2, c3, c4, c5, c6, c7, if_true, if_false,
      Bool.false_eq_true, ite_true, ite_false] <;> rfl

theorem Instance_emit_private (i : Instance) :
    Json.getStr (Instance.toJsonMembers i) "private" = .ok i.Private := by
  cases c1 : i.AttributesFlat.isEmpty <;> by_cases c2 : i.Private = "" <;>
    cases c3 : i.Dependencies.isEmpty <;> cases c4 : i.IndexKey.isNull <;>
    by_cases c5 : i.Status = "" <;> by_cases c6 : i.Deposed = "" <;>
    cases c7 : i.CreateBeforeDestroy <;>
    simp only [Instance.toJsonMembers, c1, c2, c3, c4, c5, c6, c7, if_true, if_false,
      Bool.false_eq_true, ite_true, ite_false] <;> rfl

theorem Instance_emit_dependencies (i : Instance) :
    Json.memberGet (Instance.toJsonMembers i) "dependencies"
      = (if i.Dependencies.isEmpty then none
         else some (Json.arr (i.Dependencies.map Json.str))) := by
  cases c1 : i.AttributesFlat.isEmpty <;> by_cases c2 : i.Private = "" <;>
    cases c3 : i.Dependencies.isEmpty <;> cases c4 : i.IndexKey.isNull <;>
    by_cases c5 : i.Status = "" <;> by_cases c6 : i.Deposed = "" <;>
    cases c7 : i.CreateBeforeDestroy <;>
    simp only [Instance.toJsonMembers, c1, c2, c3, c4, c5, c6, c7, if_true, if_false,
      Bool.false_eq_true, ite_true, ite_false] <;> rfl

theorem Instance_emit_indexKey (i : Instance) :
    Json.memberGet (Instance.toJsonMembers i) "index_key"
      = (if i.IndexKey.isNull then none else some i.IndexKey) := by
  cases c1 : i.AttributesFlat.isEmpty <;> by_cases c2 : i.Private = "" <;>
    cases c3 : i.Dependencies.isEmpty <;> cases c4 : i.IndexKey.isNull <;>
    by_cases c5 : i.Status = "" <;> by_cases c6 : i.Deposed = "" <;>
    cases c7 : i.CreateBeforeDestroy <;>
    simp only [Instance.toJsonMembers, c1, c2, c3, c4, c5, c6, c7, if_true, if_false,
      Bool.false_eq_true, ite_true, ite_false] <;> rfl

theorem Instance_emit_status (i : Instance) :
    Json.getStr (Instance.toJsonMembers i) "status" = .ok i.Status := by
  cases c1 : i.AttributesFlat.isEmpty <;> by_cases c2 : i.Private = "" <;>
    cases c3 : i.Dependencies.isEmpty <;> cases c4 : i.IndexKey.isNull <;>
    by_cases c5 : i.Status = "" <;> by_cases c6 : i.Deposed = "" <;>
    cases c7 : i.CreateBeforeDestroy <;>
    simp only [Instance.toJsonMembers, c1, c2, c3, c4, c5, c6, c7, if_true, if_false,
      Bool.false_eq_true, ite_true, ite_false] <;> rfl

theorem Instance_emit_deposed (i : Instance) :
    Json.getStr (Instance.toJsonMembers i) "deposed" = .ok i.Deposed := by
  cases c1 : i.AttributesFlat.isEmpty <;> by_cases c2 : i.Private = "" <;>
    cases c3 : i.Dependencies.isEmpty <;> cases c4 : i.IndexKey.isNull <;>
    by_cases c5 : i.Status = "" <;> by_cases c6 : i.Deposed = "" <;>
    cases c7 : i.CreateBeforeDestroy <;>
    simp only [Instance.toJsonMembers, c1, c2, c3, c4, c5, c6, c7, if_true, if_false,
      Bool.false_eq_true, ite_true, ite_false] <;> rfl

theorem Instance_emit_cbd (i : Instance) :
    Json.getBool (Instance.toJsonMembers i) "create_before_destroy"
      = .ok i.CreateBeforeDestroy := by
  cases c1 : i.AttributesFlat.isEmpty <;> by_cases c2 : i.Private = "" <;>
    cases c3 : i.Dependencies.isEmpty <;> cases c4 : i.IndexKey.isNull <;>
    by_cases c5 : i.Status = "" <;> by_cases c6 : i.Deposed = "" <;>
    cases c7 : i.CreateBeforeDestroy <;>
    simp only [Instance.toJsonMembers, c1, c2, c3, c4, c5, c6, c7, if_true, if_false,
      Bool.false_eq_true, ite_true, ite_false] <;> rfl

/-- Re-decoding a marshalled canonical instance recovers it. -/
theorem decodeInstance_toJson (i : Instance) (hc : i.Canon) :
    decodeInstance i.toJson = .ok i := by
  obtain ⟨hattrs, haflat, hik⟩ := hc
  rw [Instance.toJson, decodeInstance]
  rw [Instance_emit_schemaVersion i]
  dsimp only []
  rw [getOptMapWith_emit (fun j => Except.ok j.canon) id i.Attributes _ "attributes"
    (Instance_emit_attributes i)
    (fun l hl => by rw [hl] at hattrs; exact hattrs.1)
    (fun l hl p hp => by
      rw [hl] at hattrs
      show Except.ok (Json.canon p.2) = Except.ok p.2
      rw [Json.canon_eq_of_isCanon p.2 (hattrs.2 p hp)])]
  dsimp only []
  rw [getMapWithD_emit Json.decodeStrE Json.str i.AttributesFlat _ "attributes_flat"
    (Instance_emit_attributesFlat i) haflat (fun p _ => rfl)]
  dsimp only []
  rw [Instance_emit_private i]
  dsimp only []
  rw [getArrWithD_emit Json.decodeStrE Json.str i.Dependencies _ "dependencies"
    (Instance_emit_dependencies i) (fun x _ => rfl)]
  dsimp only []
  rw [Instance_emit_status i]
  dsimp only []
  rw [Instance_emit_deposed i]
  dsimp only []
  rw [Instance_emit_cbd i]
  dsimp only []
  rw [getAny_emit i.IndexKey _ "index_key" (Instance_emit_indexKey i) hik]

theorem Resource_emit_mode (r : Resource) :
    Json.getStr (Resource.toJsonMembers r) "mode" = .ok r.Mode := by
  by_cases c1 : r.EachMode = "" <;> by_cases c2 : r.Module = "" <;>
    simp only [Resource.toJsonMembers, c1, c2, if_true, if_false, ite_true, ite_false] <;> rfl

theorem Resource_emit_type (r : Resource) :
    Json.getStr (Resource.toJsonMembers r) "type" = .ok r.RType := by
  by_cases c1 : r.EachMode = "" <;> by_cases c2 : r.Module = "" <;>
    simp only [Resource.toJsonMembers, c1, c2, if_true, if_false, ite_true, ite_false] <;> rfl

theorem Resource_emit_name (r : Resource) :
    Json.getStr (Resource.toJsonMembers r) "name" = .ok r.Name := by
  by_cases c1 : r.EachMode = "" <;> by_cases c2 : r.Module = "" <;>
    simp only [Resource.toJsonMembers, c1, c2, if_true, if_false, ite_true, ite_false] <;> rfl

theorem Resource_emit_provider (r : Resource) :
    Json.getStr (Resource.toJsonMembers r) "provider" = .ok r.Provider := by
  by_cases c1 : r.EachMode = "" <;> by_cases c2 : r.Module = "" <;>
    simp only [Resource.toJsonMembers, c1, c2, if_true, if_false, ite_true, ite_false] <;> rfl

theorem Resource_emit_instances (r : Resource) :
    Json.memberGet (Resource.toJsonMembers r) "instances"
      = some (optListJson Instance.toJson r.Instances) := by
  by_cases c1 : r.EachMode = "" <;> by_cases c2 : r.Module = "" <;>
    simp only [Resource.toJsonMembers, c1, c2, if_true, if_false, ite_true, ite_false] <;> rfl

theorem Resource_emit_each (r : Resource) :
    Json.getStr (Resource.toJsonMembers r) "each" = .ok r.EachMode := by
  by_cases c1 : r.EachMode = "" <;> by_cases c2 : r.Module = "" <;>
    simp only [Resource.toJsonMembers, c1, c2, if_true, if_false, ite_true, ite_false] <;> rfl

theorem Resource_emit_module (r : Resource) :
    Json.getStr (Resource.toJsonMembers r) "module" = .ok r.Module := by
  by_cases c1 : r.EachMode = "" <;> by_cases c2 : r.Module = "" <;>
    simp only [Resource.toJsonMembers, c1, c2, if_true, if_false, ite_true, ite_false] <;> rfl

/-- Re-decoding a marshalled canonical resource recovers it. -/
theorem decodeResource_toJson (r : Resource) (hc : r.Canon) :
    decodeResource r.toJson = .ok r := by
  rw [Resource.toJson, decodeResource]
  rw [Resource_emit_mode r]
  dsimp only []
  rw [Resource_emit_type r]
  dsimp only []
  rw [Resource_emit_name r]
  dsimp only []
  rw [Resource_emit_provider r]
  dsimp only []
  rw [getOptArrWith_emit decodeInstance Instance.toJson r.Instances _ "instances"
    (Resource_emit_instances r)
    (fun l hl x hx => decodeInstance_toJson x (hc x (by rw [hl]; simpa using hx)))]
  dsimp only []
  rw [Resource_emit_each r]
  dsimp only []
  rw [Resource_emit_module r]

theorem LegacyResource_emit_type (lr : LegacyResource) :
    Json.getStr (LegacyResource.toJsonMembers lr) "type" = .ok lr.LType := rfl

theorem LegacyResource_emit_primary (lr : LegacyResource) :
    Json.memberGet (LegacyResource.toJsonMembers lr) "primary"
      = some (optStructJson Instance.toJson lr.Primary) := rfl

theorem LegacyResource_emit_deposed (lr : LegacyResource) :
    Json.memberGet (LegacyResource.toJsonMembers lr) "deposed"
      = some (optListJson (optStructJson Instance.toJson) lr.Deposed) := rfl

theorem LegacyResource_emit_provider (lr : LegacyResource) :
    Json.getStr (LegacyResource.toJsonMembers lr) "provider" = .ok lr.Provider := rfl

theorem LegacyResource_emit_depends (lr : LegacyResource) :
    Json.memberGet (LegacyResource.toJsonMembers lr) "depends_on"
      = some (optListJson Json.str lr.Dependencies) := rfl

/-- Decoding a marshalled pointer element recovers it. -/
theorem decodePtrWith_toJson (i : Instance) (hc : i.Canon) :
    Json.decodePtrWith decodeInstance i.toJson = .ok (some i) := by
  have hdi := decodeInstance_toJson i hc
  rw [Instance.toJson] at hdi ⊢
  rw [Json.decodePtrWith, hdi]
  intro h
  exact Json.noConfusion h

/-- Re-decoding a marshalled canonical legacy resource recovers it. -/
theorem decodeLegacyResource_toJson (lr : LegacyResource) (hc : lr.Canon) :
    decodeLegacyResource lr.toJson = .ok lr := by
  rw [LegacyResource.toJson, decodeLegacyResource]
  rw [LegacyResource_emit_type lr]
  dsimp only []
  rw [getOptStructWith_emit decodeInstance Instance.toJson lr.Primary _ "primary"
    (LegacyResource_emit_primary lr)
    (fun x _ => ⟨Instance.toJsonMembers x, rfl⟩)
    (fun x hx => decodeInstance_toJson x (hc.1 x hx))]
  dsimp only []
  rw [getOptArrWith_emit (Json.decodePtrWith decodeInstance)
    (optStructJson Instance.toJson)
    lr.Deposed _ "deposed" (LegacyResource_emit_deposed lr)
    (fun l hl oi hoi => by
      cases oi with
      | none => rfl
      | some i =>
        show Json.decodePtrWith decodeInstance i.toJson = .ok (some i)
        exact decodePtrWith_toJson i
          (hc.2 (some i) (by rw [hl]; simpa using hoi) i rfl))]
  dsimp only []
  rw [LegacyResource_emit_provider lr]
  dsimp only []
  rw [getOptArrWith_emit Json.decodeStrE Json.str lr.Dependencies _ "depends_on"
    (LegacyResource_emit_depends lr) (fun l _ x _ => rfl)]

theorem Module_emit_path (m : Module) :
    Json.memberGet (Module.toJsonMembers m) "path"
      = some (optListJson Json.str m.Path) := rfl

theorem Module_emit_outputs (m : Module) :
    Json.memberGet (Module.toJsonMembers m) "outputs"
      = some (goMapJson Output.toJson m.Outputs) := rfl

theorem Module_emit_resources (m : Module) :
    Json.memberGet (Module.toJsonMembers m) "resources"
      = some (goMapJson LegacyResource.toJson m.Resources) := rfl

theorem Module_emit_dependencies (m : Module) :
    Json.memberGet (Module.toJsonMembers m) "dependencies"
      = some (optListJson Json.str m.Dependencies) := rfl

/-- Re-decoding a marshalled canonical module recovers it. -/
theorem decodeModule_toJson (m : Module) (hc : m.Canon) :
    decodeModule m.toJson = .ok m := by
  rw [Module.toJson, decodeModule]
  rw [getOptArrWith_emit Json.decodeStrE Json.str m.Path _ "path"
    (Module_emit_path m) (fun l _ x _ => rfl)]
  dsimp only []
  rw [getOptMapWith_emit decodeOutput Output.toJson m.Outputs _ "outputs"
    (Module_emit_outputs m)
    (fun l hl => by have := hc.1; rw [hl] at this; exact this.1)
    (fun l hl p hp => by
      have := hc.1
      rw [hl] at this
      exact decodeOutput_toJson p.2 (this.2 p hp))]
  dsimp only []
  rw [getOptMapWith_emit decodeLegacyResource LegacyResource.toJson m.Resources _
    "resources" (Module_emit_resources m)
    (fun l hl => by have := hc.2; rw [hl] at this; exact this.1)
    (fun l hl p hp => by
      have := hc.2
      rw [hl] at this
      exact decodeLegacyResource_toJson p.2 (this.2 p hp))]
  dsimp only []
  rw [getOptArrWith_emit Json.decodeStrE Json.str m.Dependencies _ "dependencies"
    (Module_emit_dependencies m) (fun l _ x _ => rfl)]

theorem State_emit_version (ts : TerraformState) :
    Json.getInt (TerraformState.toJsonMembers ts) "version" = .ok ts.Version := by
  cases c1 : ts.CheckResults.isNull <;> cases c2 : ts.Modules.isEmpty <;>
    simp only [TerraformState.toJsonMembers, c1, c2, if_true, if_false,
      Bool.false_eq_true, ite_true, ite_false] <;> rfl

theorem State_emit_tfversion (ts : TerraformState) :
    Json.getStr (TerraformState.toJsonMembers ts) "terraform_version"
      = .ok ts.TerraformVersion := by
  cases c1 : ts.CheckResults.isNull <;> cases c2 : ts.Modules.isEmpty <;>
    simp only [TerraformState.toJsonMembers, c1, c2, if_true, if_false,
      Bool.false_eq_true, ite_true, ite_false] <;> rfl

theorem State_emit_serial (ts : TerraformState) :
    Json.getInt (TerraformState.toJsonMembers ts) "serial" = .ok ts.Serial := by
  cases c1 : ts.CheckResults.isNull <;> cases c2 : ts.Modules.isEmpty <;>
    simp only [TerraformState.toJsonMembers, c1, c2, if_true, if_false,
      Bool.false_eq_true, ite_true, ite_false] <;> rfl

theorem State_emit_lineage (ts : TerraformState) :
    Json.getStr (TerraformState.toJsonMembers ts) "lineage" = .ok ts.Lineage := by
  cases c1 : ts.CheckResults.isNull <;> cases c2 : ts.Modules.isEmpty <;>
    simp only [TerraformState.toJsonMembers, c1, c2, if_true, if_false,
      Bool.false_eq_true, ite_true, ite_false] <;> rfl

theorem State_emit_outputs (ts : TerraformState) :
    Json.memberGet (TerraformState.toJsonMembers ts) "outputs"
      = some (goMapJson Output.toJson ts.Outputs) := by
  cases c1 : ts.CheckResults.isNull <;> cases c2 : ts.Modules.isEmpty <;>
    simp only [TerraformState.toJsonMembers, c1, c2, if_true, if_false,
      Bool.false_eq_true, ite_true, ite_false] <;> rfl

theorem State_emit_resources (ts : TerraformState) :
    Json.memberGet (TerraformState.toJsonMembers ts) "resources"
      = some (optListJson Resource.toJson ts.Resources) := by
  cases c1 : ts.CheckResults.isNull <;> cases c2 : ts.Modules.isEmpty <;>
    simp only [TerraformState.toJsonMembers, c1, c2, if_true, if_false,
      Bool.false_eq_true, ite_true, ite_false] <;> rfl

theorem State_emit_checkResults (ts : TerraformState) :
    Json.memberGet (TerraformState.toJsonMembers ts) "check_results"
      = (if ts.CheckResults.isNull then none else some ts.CheckResults) := by
  cases c1 : ts.CheckResults.isNull <;> cases c2 : ts.Modules.isEmpty <;>
    simp only [TerraformState.toJsonMembers, c1, c2, if_true, if_false,
      Bool.false_eq_true, ite_true, ite_false] <;> rfl

theorem State_emit_modules (ts : TerraformState) :
    Json.memberGet (TerraformState.toJsonMembers ts) "modules"
      = (if ts.Modules.isEmpty then none
         else some (Json.arr (ts.Modules.map Module.toJson))) := by
  cases c1 : ts.CheckResults.isNull <;> cases c2 : ts.Modules.isEmpty <;>
    simp only [TerraformState.toJsonMembers, c1, c2, if_true, if_false,
      Bool.false_eq_true, ite_true, ite_false] <;> rfl

/-- Re-decoding a marshalled canonical state recovers it: on the image of the
decoder, `json.Marshal` is a section of parsing. -/
theorem decodeTerraformState_toJson (ts : TerraformState) (hc : ts.Canon) :
    decodeTerraformState ts.toJson = .ok ts := by
  obtain ⟨hOuts, hRess, hCR, hMods⟩ := hc
  rw [TerraformState.toJson, decodeTerraformState]
  rw [State_emit_version ts]
  dsimp only []
  rw [State_emit_tfversion ts]
  dsimp only []
  rw [State_emit_serial ts]
  dsimp only []
  rw [State_emit_lineage ts]
  dsimp only []
  rw [getOptMapWith_emit decodeOutput Output.toJson ts.Outputs _ "outputs"
    (State_emit_outputs ts)
    (fun l hl => by rw [hl] at hOuts; exact hOuts.1)
    (fun l hl p hp => by
      rw [hl] at hOuts
      exact decodeOutput_toJson p.2 (hOuts.2 p hp))]
  dsimp only []
  rw [getOptArrWith_emit decodeResource Resource.toJson ts.Resources _ "resources"
    (State_emit_resources ts)
    (fun l hl x hx => decodeResource_toJson x (hRess x (by rw [hl]; simpa using hx)))]
  dsimp only []
  rw [getArrWithD_emit decodeModule Module.toJson ts.Modules _ "modules"
    (State_emit_modules ts) (fun x hx => decodeModule_toJson x (hMods x hx))]
  dsimp only []
  rw [getAny_emit ts.CheckResults _ "check_results" (State_emit_checkResults ts) hCR]

/-- C6 as amended.  For every valid state-file input, `rawState` equals the
canonical JSON re-marshalling of the decoded TerraformState (fixed field
order, zero values materialized, map keys sorted, unknown fields dropped),
not the original input bytes; and rawState is a fixed point of
parse-then-convert: re-parsing the produced rawState succeeds, yields the
same state, and re-converting yields a byte-equal rawState. -/
theorem C6_rawState_amended (j : Json) (ts : terraform.TerraformState)
    (sc : statemanager.StateContent)
    (hp : terraform.ParseBytes j = .ok ts)
    (hc : terraform.ConvertTerraformStateToStateContent ts = .ok sc) :
    sc.RawState = terraform.marshalTerraformState ts
    ∧ sc.RawState = Json.render (terraform.TerraformState.toJson ts)
    ∧ terraform.ParseBytes (terraform.TerraformState.toJson ts) = .ok ts
    ∧ ∃ sc2, terraform.ConvertTerraformStateToStateContent ts = .ok sc2
        ∧ sc2.RawState = sc.RawState := by
  have hcanon : ts.Canon := terraform.decodeTerraformState_canon j ts hp
  have hrt : terraform.ParseBytes (terraform.TerraformState.toJson ts) = .ok ts :=
    terraform.decodeTerraformState_toJson ts hcanon
  have hraw : sc.RawState = terraform.marshalTerraformState ts := by
    injection hc with h
    rw [← h]
  exact ⟨hraw, hraw, hrt, sc, hc, rfl⟩

/-- Witness for C6 (amended) at a concrete four-field state file. -/
theorem C6_witness :
    cSc6.RawState = terraform.marshalTerraformState cTs6
    ∧ cSc6.RawState = Json.render (terraform.TerraformState.toJson cTs6)
    ∧ terraform.ParseBytes (terraform.TerraformState.toJson cTs6) = .ok cTs6
    ∧ ∃ sc2, terraform.ConvertTerraformStateToStateContent cTs6 = .ok sc2
        ∧ sc2.RawState = cSc6.RawState :=
  C6_rawState_amended cJ6 cTs6 cSc6 rfl rfl

end terraform

end DriftWatcher
